import Mathlib

/-!
Verification of the round-orchestration core of the `prompt-battle`
repository (Node.js server: `server/roomManager.js`, `server/gameLogic.js`,
`server/index.js` socket handlers).

The JavaScript code is shallowly embedded below.  Conventions of the
embedding:

* JS `Map`s and plain objects used as dictionaries become insertion-ordered
  association lists (`List (String × α)` or `List Player`); `set` replaces
  the first entry with the key in place or appends, `delete` removes the
  first entry with the key, matching `Map` semantics (keys are unique in a
  `Map`, so "first" is "the" entry).
* Machine numbers that stay small non-negative integers (scores, counts)
  become `Nat`; `Math.round(x)` on a non-negative rational `num/den` is
  floor of `x + 1/2`, computed exactly over `Nat`.
* A thrown JS exception becomes `Except.error` carrying the message; code
  that cannot throw returns plain values.
* String falsiness (`!s`, `if (s)`) is the test `s == ""` — for a string
  that is not `undefined`/`null`, JS falsiness is exactly emptiness.
* Character classes follow the regex `\W` = `[^A-Za-z0-9_]`; `toLowerCase`
  is modelled per character on the ASCII range (`Char.toLower`).
-/

namespace PromptBattle

/-! ## Association-list helpers (JS objects / Maps) -/

/-- Look up a key in an insertion-ordered association list
(JS `obj[k]` / `map.get(k)`). -/
def assocFind {α : Type} (k : String) : List (String × α) → Option α
  | [] => none
  | (k', v) :: rest => if k' == k then some v else assocFind k rest

/-- Set a key (JS `obj[k] = v` / `map.set(k, v)`): replace the first entry
with that key in place, or append a new entry. -/
def assocSet {α : Type} (k : String) (v : α) : List (String × α) → List (String × α)
  | [] => [(k, v)]
  | (k', v') :: rest =>
    if k' == k then (k, v) :: rest else (k', v') :: assocSet k v rest

/-! ## Scoring engine — `calculateSimilarity` (gameLogic.js lines 232-243) -/

/-- Membership in the regex word class `\w` = `[A-Za-z0-9_]`. -/
def isWordChar (c : Char) : Bool :=
  ('a' ≤ c && c ≤ 'z') || ('A' ≤ c && c ≤ 'Z') || ('0' ≤ c && c ≤ '9') || c == '_'

/-- Worker for `splitW`.  The second argument is `some acc` while a token
(which may be empty) is being collected, and `none` while a run of
non-word separator characters is being skipped. -/
def splitWAux : List Char → Option (List Char) → List (List Char)
  | [], some acc => [acc.reverse]
  | [], none => [[]]
  | c :: cs, some acc =>
    if isWordChar c then splitWAux cs (some (c :: acc))
    else acc.reverse :: splitWAux cs none
  | c :: cs, none =>
    if isWordChar c then splitWAux cs (some [c]) else splitWAux cs none

/-- JavaScript `str.split(/\W+/)` on the character list of `str`: the
maximal runs of word characters, including an empty token at the front
when the string starts with a non-word character and an empty token at
the back when it ends with one (`"".split` gives `[""]`). -/
def splitW (l : List Char) : List (List Char) :=
  splitWAux l (some [])

/-- Worker for `specTokens`; same states as `splitWAux` but boundary
empty tokens are never produced. -/
def specTokensAux : List Char → Option (List Char) → List (List Char)
  | [], some acc => [acc.reverse]
  | [], none => []
  | c :: cs, some acc =>
    if isWordChar c then specTokensAux cs (some (c :: acc))
    else acc.reverse :: specTokensAux cs none
  | c :: cs, none =>
    if isWordChar c then specTokensAux cs (some [c]) else specTokensAux cs none

/-- Tokenization in the sense of the specification's words: the (non-empty)
maximal runs of word characters, i.e. the words of the string. -/
def specTokens (l : List Char) : List (List Char) :=
  specTokensAux l none

/-- `Math.round(num / den)` for non-negative `num/den`: round half up,
computed exactly over `Nat` (the JS code computes this in floating point;
the model uses exact arithmetic, which agrees on all values whose halves
are exactly representable, in particular on every input used below). -/
def jsRound (num den : Nat) : Nat :=
  (2 * num + den) / (2 * den)

/-- `calculateSimilarity` from `gameLogic.js`:

```js
function calculateSimilarity(a, b) {
  if (!a || !b) return 0;
  const wordsA = a.toLowerCase().split(/\W+/);
  const wordsB = b.toLowerCase().split(/\W+/);
  const setA = new Set(wordsA);
  let overlap = 0;
  for (const word of wordsB) {
    if (setA.has(word)) overlap++;
  }
  const maxWords = Math.max(wordsA.length, wordsB.length);
  return Math.round((overlap / maxWords) * 100);
}
```

`setA.has word` is membership of `word` in the list `wordsA` (the `Set`
only removes duplicates, which membership ignores). -/
def calculateSimilarity (a b : String) : Nat :=
  if a == "" || b == "" then 0
  else
    let wordsA := splitW (a.toList.map Char.toLower)
    let wordsB := splitW (b.toList.map Char.toLower)
    let overlap := wordsB.foldl (fun n w => if wordsA.contains w then n + 1 else n) 0
    let maxWords := max wordsA.length wordsB.length
    jsRound (overlap * 100) maxWords

/-- The reference definition of the similarity score as the specification
words it: tokenize both strings into lowercase word sequences split on
non-word-character runs; count the tokens of the candidate that appear in
the token set of the original, with no duplicate counting beyond presence;
divide by the larger token count (score 0 if that maximum is 0), scale to
0-100 and round to nearest. -/
def specSimilarity (a b : String) : Nat :=
  if a == "" || b == "" then 0
  else
    let ta := specTokens (a.toList.map Char.toLower)
    let tb := specTokens (b.toList.map Char.toLower)
    let m := max ta.length tb.length
    if m == 0 then 0
    else jsRound ((tb.dedup.countP (fun w => ta.contains w)) * 100) m

/-- The empty token JS `split(/\W+/)` yields at the front of the result
when the input starts with a non-word character (or is empty). -/
def leadingEmpty (l : List Char) : List (List Char) :=
  match l with
  | [] => [[]]
  | c :: _ => if isWordChar c then [] else [[]]

/-- The empty token JS `split(/\W+/)` yields at the back of the result
when the input ends with a non-word character. -/
def trailingEmpty (l : List Char) : List (List Char) :=
  match l.getLast? with
  | some d => if isWordChar d then [] else [[]]
  | none => []

/-- The token list actually produced by `str.split(/\W+/)`, described
structurally: the words of the string, with an empty token prepended when
the string starts with a non-word character (or is empty) and an empty
token appended when it ends with a non-word character. -/
def jsTokens (l : List Char) : List (List Char) :=
  leadingEmpty l ++ specTokens l ++ trailingEmpty l

/-- The similarity score as the amended claim words it: tokenize with the
JS `split(/\W+/)` semantics (`jsTokens`, boundary empty tokens retained),
count the candidate's tokens (with multiplicity) that are members of the
original's token list, divide by the larger token-list length, scale to
0-100 and round half up. -/
def amendedSimilarity (a b : String) : Nat :=
  if a == "" || b == "" then 0
  else
    let ta := jsTokens (a.toList.map Char.toLower)
    let tb := jsTokens (b.toList.map Char.toLower)
    jsRound ((tb.countP (fun w => ta.contains w)) * 100) (max ta.length tb.length)

/-! ## Data model (roomManager.js) -/

/-- Values of `GAME_STATES` from `shared/constants.js` (the string values
are visible through the client's `translateState`). -/
inductive GameState where
  | waiting
  | starting
  | showing_image
  | writing_prompt
  | generating_images
  | voting
  | showing_results
  | game_over
deriving Repr, DecidableEq

/-- A player record as built by `createRoom` / `joinRoom`. -/
structure Player where
  id : String
  name : String
  score : Nat
  ready : Bool
  prompt : Option String
  image : Option String
deriving Repr, DecidableEq

/-- The per-round record assigned at the top of each round in
`startGame` (gameLogic.js lines 39-45). -/
structure RoundData where
  originalPrompt : Option String
  originalImage : Option String
  prompts : List (String × String)
  images : List (String × Option String)
  scores : List (String × Nat)
deriving Repr, DecidableEq

/-- The `config` sub-object stored in a room by `createRoom`. -/
structure RoomConfig where
  rounds : Nat
  difficulty : String
  categories : List String
  mode : String
deriving Repr, DecidableEq

/-- A room record.  `roundData = none` models the bare object `{}` the
room is created with (it has no `prompts`/`images`/`scores` fields);
`some rd` models the populated object assigned at each round's start.
`pending` models whether `room._resolvePromptPromise` currently holds a
resolver (the Submission Gate's guard). -/
structure Room where
  code : String
  host : String
  config : RoomConfig
  players : List Player
  state : GameState
  currentRound : Nat
  roundData : Option RoundData
  pending : Bool
deriving Repr, DecidableEq

/-- The in-memory `rooms` map, in insertion order. -/
abbrev Registry := List Room

/-- `rooms.get(code)`. -/
def findRoom (reg : Registry) (code : String) : Option Room :=
  match reg with
  | [] => none
  | r :: rest => if r.code == code then some r else findRoom rest code

/-- Write a mutated room object back: rooms are mutated in place in JS,
so the model replaces the first (under `Map` semantics, the only) entry
with the same code. -/
def updateRoom : Registry → Room → Registry
  | [], _ => []
  | q :: qs, r => if q.code == r.code then r :: qs else q :: updateRoom qs r

/-- `map.get(id)` on the players map. -/
def findPlayer (sid : String) : List Player → Option Player
  | [] => none
  | q :: qs => if q.id == sid then some q else findPlayer sid qs

/-- `players.set(id, p)`: replace the entry with that id in place, or
append. -/
def setPlayer (p : Player) : List Player → List Player
  | [] => [p]
  | q :: qs => if q.id == p.id then p :: qs else q :: setPlayer p qs

/-- `players.delete(id)`: remove the entry with that id. -/
def delPlayer (sid : String) : List Player → List Player
  | [] => []
  | q :: qs => if q.id == sid then qs else q :: delPlayer sid qs

/-! ## Session registry operations (roomManager.js) -/

/-- The configuration object a client sends with `create-room`.  Absent
fields are `none`.  JS reads them with `||`-defaults, so a present but
falsy value (`0` for the number, `""` for the strings) also falls back;
a present array is always truthy, even when empty. -/
structure ClientConfig where
  rounds : Option Nat
  difficulty : Option String
  categories : Option (List String)
  mode : Option String
  playerName : Option String

/-- JS `v || d` for an optional number field: `undefined` and `0` are
falsy. -/
def orDefaultNat (v : Option Nat) (d : Nat) : Nat :=
  match v with
  | none => d
  | some n => if n == 0 then d else n

/-- JS `v || d` for an optional string field: `undefined` and `""` are
falsy. -/
def orDefaultStr (v : Option String) (d : String) : String :=
  match v with
  | none => d
  | some s => if s == "" then d else s

/-- JS `v || d` for an optional array field: an array is always truthy. -/
def orDefaultList (v : Option (List String)) (d : List String) : List String :=
  match v with
  | none => d
  | some l => l

/-- The room object built by `createRoom` (roomManager.js lines 36-81).
The `code` argument stands for the room code produced by the
`do { code = generateRoomCode() } while (rooms.has(code))` loop — a
random 6-character code that is fresh in the registry; the claims under
verification do not depend on how it is drawn. -/
def createRoom (code : String) (config : ClientConfig) (sid : String) : Room :=
  { code := code
    host := sid
    config :=
      { rounds := orDefaultNat config.rounds 3
        difficulty := orDefaultStr config.difficulty "medium"
        categories := orDefaultList config.categories ["random"]
        mode := orDefaultStr config.mode "classic" }
    players :=
      [{ id := sid
         name := orDefaultStr config.playerName "Host"
         score := 0
         ready := false
         prompt := none
         image := none }]
    state := GameState.waiting
    currentRound := 0
    roundData := none
    pending := false }

/-- `rooms.set(code, room)` for the fresh room: a new key appends. -/
def createRoomReg (reg : Registry) (code : String) (config : ClientConfig)
    (sid : String) : Registry :=
  reg ++ [createRoom code config sid]

/-- The player record `joinRoom` inserts: name defaulted with `||` (so
`""` also falls back to `"Player"`), score 0, no submission state. -/
def mkJoinPlayer (sid name : String) : Player :=
  { id := sid
    name := if name == "" then "Player" else name
    score := 0
    ready := false
    prompt := none
    image := none }

/-- Result object `{ success, message }` returned by `joinRoom`. -/
structure JoinResult where
  success : Bool
  message : String
deriving Repr, DecidableEq

/-- `joinRoom(roomCode, socket, playerName)` (roomManager.js lines
93-124).  `maxPlayers` is `MAX_PLAYERS_PER_ROOM` (default 6). -/
def joinRoom (maxPlayers : Nat) (reg : Registry) (code sid name : String) :
    JoinResult × Registry :=
  match findRoom reg code with
  | none => ({ success := false, message := "Room does not exist." }, reg)
  | some room =>
    if maxPlayers ≤ room.players.length then
      ({ success := false, message := "Room is full." }, reg)
    else
      ({ success := true, message := "Joined room successfully." },
       updateRoom reg { room with players := setPlayer (mkJoinPlayer sid name) room.players })

/-- `removePlayer(socketId)` (roomManager.js lines 132-153): scan the
rooms in order; in a room containing the player, delete the entry; if the
player was that room's host, promote the first remaining player, or — if
none remain — delete the room and `break` out of the scan. -/
def removePlayer (sid : String) : Registry → Registry
  | [] => []
  | room :: rest =>
    if room.players.any (fun q => q.id == sid) then
      let players' := delPlayer sid room.players
      if room.host == sid then
        match players' with
        | [] => rest
        | p :: _ => { room with players := players', host := p.id } :: removePlayer sid rest
      else
        { room with players := players' } :: removePlayer sid rest
    else room :: removePlayer sid rest

/-! ## Submission Gate (gameLogic.js lines 161-198) -/

/-- Truthiness of `room.roundData.prompts[id]`: the entry exists and is a
non-empty string. -/
def promptTruthy (prompts : List (String × String)) (id : String) : Bool :=
  match assocFind id prompts with
  | some p => !(p == "")
  | none => false

/-- `Array.from(room.players.keys()).every(id => room.roundData.prompts[id])`. -/
def allSubmitted (players : List Player) (prompts : List (String × String)) : Bool :=
  players.all (fun pl => promptTruthy prompts pl.id)

/-- `handlePromptSubmission(room, socketId, prompt)`:

```js
if (!room || !room.roundData) return;
room.roundData.prompts[socketId] = prompt;
if (room._resolvePromptPromise) {
  const allSubmitted = Array.from(room.players.keys()).every(
    (id) => room.roundData.prompts[id]);
  if (allSubmitted) { room._resolvePromptPromise(); room._resolvePromptPromise = null; }
}
```

In this codebase `room.roundData` is never `undefined`: it is the bare
object `{}` (modelled `none`) until the first round starts, and a
populated record afterwards.  The `{}` object is truthy, so the guard
passes, and the assignment `room.roundData.prompts[socketId] = prompt`
throws a `TypeError` because `prompts` is `undefined`.  The returned
`Bool` records whether the pending resolver was invoked (the awaited
gate resolved). -/
def handlePromptSubmission (room : Room) (sid prompt : String) :
    Except String (Room × Bool) :=
  match room.roundData with
  | none => Except.error "TypeError: cannot set properties of undefined"
  | some rd =>
    let rd' := { rd with prompts := assocSet sid prompt rd.prompts }
    if room.pending && allSubmitted room.players rd'.prompts then
      Except.ok ({ room with roundData := some rd', pending := false }, true)
    else
      Except.ok ({ room with roundData := some rd' }, false)

/-- The body of the `setTimeout` armed by `waitForPrompts`: if a resolver
is still pending, invoke it and clear it; otherwise do nothing.  The
returned `Bool` records whether the resolver was invoked. -/
def promptTimerFire (room : Room) : Room × Bool :=
  if room.pending then ({ room with pending := false }, true) else (room, false)

/-- `waitForPrompts` stores the resolver on the room (opens the gate). -/
def waitForPrompts (room : Room) : Room :=
  { room with pending := true }

/-- A mid-phase change to the room object a running writing phase can
observe: a prompt submission, the deadline timer firing, a player joining
the room, or a player disconnecting. -/
inductive GateEvent where
  | submit (sid prompt : String)
  | timer
  | join (p : Player)
  | leave (sid : String)
deriving DecidableEq

/-- The effect of a disconnect on the room object itself (the inner block
of `removePlayer`): delete the entry and, if the host left, promote the
first remaining player.  When the last player leaves, the registry drops
the room, but the room object the orchestrator and timers hold is
unchanged beyond the deletion. -/
def roomOnDisconnect (sid : String) (room : Room) : Room :=
  if room.players.any (fun q => q.id == sid) then
    let players' := delPlayer sid room.players
    if room.host == sid then
      match players' with
      | [] => { room with players := players' }
      | p :: _ => { room with players := players', host := p.id }
    else { room with players := players' }
  else room

/-- One event applied to the room; the `Bool` is true exactly when the
event invoked the gate's resolver.  A `TypeError` thrown by a submission
is caught at the socket boundary, leaving the room unchanged. -/
def gateStep (room : Room) : GateEvent → Room × Bool
  | GateEvent.submit sid prompt =>
    match handlePromptSubmission room sid prompt with
    | Except.ok rb => rb
    | Except.error _ => (room, false)
  | GateEvent.timer => promptTimerFire room
  | GateEvent.join p => ({ room with players := setPlayer p room.players }, false)
  | GateEvent.leave sid => (roomOnDisconnect sid room, false)

/-- Run a sequence of events; the `Nat` counts how many of them invoked
the gate's resolver (i.e. how many times the awaited gate resolved). -/
def execGate (room : Room) : List GateEvent → Room × Nat
  | [] => (room, 0)
  | ev :: evs =>
    let rb := gateStep room ev
    let rn := execGate rb.1 evs
    (rn.1, (if rb.2 then 1 else 0) + rn.2)

/-! ## Round orchestrator phases (gameLogic.js lines 88-136)

The phases run over a snapshot `playerIds = Array.from(room.players.keys())`
taken when the generating phase starts; the image-generation gateway is a
parameter `gen` whose `Except.error` case models the `try/catch` around
`imageGenerator.generateImageFromPrompt` (the catch stores a null image). -/

/-- The `prompt` local of the phase-3/4 loops after its truthiness test:
`const prompt = room.roundData.prompts[playerId]; if (prompt) ...` — an
absent entry and an empty string both take the else branch. -/
def truthyPromptOf (rd : RoundData) (pid : String) : Option String :=
  match assocFind pid rd.prompts with
  | some p => if p == "" then none else some p
  | none => none

/-- One iteration of the phase-3 loop body (lines 92-106) for one player
id: if the player has a truthy stored prompt call the gateway and store
the image (null on a caught error), otherwise store null without calling
the gateway.  The loop also reads `room.players.get(playerId)` into an
unused local, which cannot throw, so the players map does not appear. -/
def genImageStep (gen : String → Except String String) (rd : RoundData)
    (pid : String) : RoundData :=
  match truthyPromptOf rd pid with
  | some prompt =>
    match gen prompt with
    | Except.ok image => { rd with images := assocSet pid (some image) rd.images }
    | Except.error _ => { rd with images := assocSet pid none rd.images }
  | none => { rd with images := assocSet pid none rd.images }

/-- Phase 3 (lines 91-106): the loop over the snapshotted player ids. -/
def generateImagesPhase (gen : String → Except String String)
    (snapshot : List String) (rd : RoundData) : RoundData :=
  snapshot.foldl (genImageStep gen) rd

/-- One iteration of the phase-4 scoring loop body (lines 122-126):
`scores[playerId] = prompt ? calculateSimilarity(originalPrompt, prompt) : 0`. -/
def scoreStep (originalPrompt : String) (rd : RoundData) (pid : String) : RoundData :=
  let s :=
    match truthyPromptOf rd pid with
    | some prompt => calculateSimilarity originalPrompt prompt
    | none => 0
  { rd with scores := assocSet pid s rd.scores }

/-- Phase 4, scoring loop (lines 122-126) over the snapshotted ids. -/
def scoringPhase (originalPrompt : String) (snapshot : List String)
    (rd : RoundData) : RoundData :=
  snapshot.foldl (scoreStep originalPrompt) rd

/-- Phase 4, accumulation loop (lines 128-132):

```js
for (const playerId of playerIds) {
  const player = room.players.get(playerId);
  const roundScore = room.roundData.scores[playerId];
  player.score += roundScore;
}
```

`player` is `undefined` when the snapshotted player has left the room,
and `player.score` then throws a `TypeError`.  `scores[playerId]` is
always set for a snapshotted id by the scoring loop; `getD 0` covers the
vacuous other case. -/
def accumulateScores (snapshot : List String) (rd : RoundData) (room : Room) :
    Except String Room :=
  snapshot.foldlM
    (fun room pid =>
      match findPlayer pid room.players with
      | some _ =>
        let players' := room.players.map (fun q =>
          if q.id == pid then
            { q with score := q.score + (assocFind pid rd.scores).getD 0 }
          else q)
        Except.ok { room with players := players' }
      | none => Except.error "TypeError: cannot read score of undefined")
    room

/-- The tail of one round from the start of the generating phase: generate
images, compute round scores, accumulate them into the players' totals.
The snapshot is passed in because it is taken before the phase's `await`
points, during which players may leave. -/
def roundPhases (gen : String → Except String String) (originalPrompt : String)
    (snapshot : List String) (room : Room) (rd : RoundData) :
    Except String (Room × RoundData) :=
  let rd1 := generateImagesPhase gen snapshot rd
  let rd2 := scoringPhase originalPrompt snapshot rd1
  match accumulateScores snapshot rd2 room with
  | Except.ok room' => Except.ok (room', rd2)
  | Except.error e => Except.error e

/-! ## Socket boundary handlers (index.js) -/

/-- The `{ success, message? }` object passed to a socket callback. -/
structure AckResult where
  success : Bool
  message : Option String
deriving Repr, DecidableEq

/-- The `submit-prompt` handler (index.js lines 227-237): look the room
up, delegate to `handlePromptSubmission`, acknowledge success; any thrown
error is caught and acknowledged as a failure with its message. -/
def submitPromptHandler (reg : Registry) (code sid prompt : String) :
    AckResult × Registry :=
  match findRoom reg code with
  | none => ({ success := false, message := some "Room not found" }, reg)
  | some room =>
    match handlePromptSubmission room sid prompt with
    | Except.ok rb => ({ success := true, message := none }, updateRoom reg rb.1)
    | Except.error e => ({ success := false, message := some e }, reg)

/-- The admission decision of the `start-game` handler (index.js lines
210-220) together with `startGame`'s own entry guard (gameLogic.js lines
30-31): the request is rejected with `Room not found` when the room is
absent, and otherwise the game loop is entered — there is no further
check before `room.state = GAME_STATES.STARTING`. -/
inductive StartDecision where
  | rejected (message : String)
  | started
deriving Repr, DecidableEq

/-- What the `start-game` handler decides for a request. -/
def startGameCheck (reg : Registry) (code : String) : StartDecision :=
  match findRoom reg code with
  | none => StartDecision.rejected "Room not found"
  | some _ => StartDecision.started

/-- The first action of `startGame` on an accepted request (line 32). -/
def startGameBegin (room : Room) : Room :=
  { room with state := GameState.starting }

/-! ## Operation-level semantics for the score-evolution claim -/

/-- One externally triggered operation that can touch player scores: a
room creation, a join, a disconnect, or the generating/scoring/
accumulation tail of one round on a room (with the gateway outcome and
the player-id snapshot as parameters). -/
inductive Op where
  | create (code : String) (cfg : ClientConfig) (sid : String)
  | join (code sid name : String)
  | leave (sid : String)
  | round (code : String) (gen : String → Except String String)
      (orig : String) (snapshot : List String)

/-- The empty `roundData` record assigned at a round's start. -/
def emptyRoundData : RoundData :=
  { originalPrompt := none, originalImage := none
    prompts := [], images := [], scores := [] }

/-- Execute one operation against the registry.  A `TypeError` escaping
the round tail aborts the game loop (the registry keeps the state the
mutation reached; for the score claim only successful executions are
compared, so the model returns the error). -/
def execOp (maxPlayers : Nat) (op : Op) (reg : Registry) : Except String Registry :=
  match op with
  | Op.create code cfg sid => Except.ok (createRoomReg reg code cfg sid)
  | Op.join code sid name => Except.ok (joinRoom maxPlayers reg code sid name).2
  | Op.leave sid => Except.ok (removePlayer sid reg)
  | Op.round code gen orig snapshot =>
    match findRoom reg code with
    | none => Except.ok reg
    | some room =>
      match roundPhases gen orig snapshot room (room.roundData.getD emptyRoundData) with
      | Except.ok rr =>
        Except.ok (updateRoom reg { rr.1 with roundData := some rr.2 })
      | Except.error e => Except.error e

/-! ## Derived observations and side conditions used by the theorems -/

/-- The image stored for a snapshotted player by the generating phase, as
a function of the gateway and the player's stored prompt: the generated
image on success, null on a caught gateway error or when the player has
no truthy stored prompt. -/
def imageResult (gen : String → Except String String) (rd : RoundData)
    (pid : String) : Option String :=
  match truthyPromptOf rd pid with
  | some prompt =>
    match gen prompt with
    | Except.ok image => some image
    | Except.error _ => none
  | none => none

/-- The round score stored for a snapshotted player by the scoring loop:
the lexical similarity of the stored prompt to the original when one is
present, 0 otherwise.  The gateway outcome does not occur here. -/
def scoreResult (originalPrompt : String) (rd : RoundData) (pid : String) : Nat :=
  match truthyPromptOf rd pid with
  | some prompt => calculateSimilarity originalPrompt prompt
  | none => 0

/-- The cumulative score of a player in a room of the registry. -/
def scoreOf (reg : Registry) (code sid : String) : Option Nat :=
  (findRoom reg code).bind (fun r => (findPlayer sid r.players).map Player.score)

/-- Side condition for the score-evolution claim: a join does not reuse
the id of a player already in the target room (a rejoin overwrites the
entry and resets its score). -/
def joinFresh (op : Op) (reg : Registry) : Prop :=
  match op with
  | Op.join code sid _ =>
    ∀ room, findRoom reg code = some room →
      room.players.all (fun q => !(q.id == sid)) = true
  | _ => True

/-- Side condition for the score-evolution claim: the orchestrator's
player-id snapshot, taken from `Map` keys, has no duplicates. -/
def snapshotOk (op : Op) : Prop :=
  match op with
  | Op.round _ _ _ snapshot => snapshot.Nodup
  | _ => True

/-- Whether an operation is the round tail (the only operation that adds
to scores). -/
def isRoundOp (op : Op) : Bool :=
  match op with
  | Op.round _ _ _ _ => true
  | _ => false

/-! ## Concrete fixtures for witnesses and counterexamples -/

/-- A client configuration with every field absent. -/
def cfgEmpty : ClientConfig := ⟨none, none, none, none, none⟩

/-- A freshly created room: host `H1`, default configuration. -/
def roomFresh : Room := createRoom "ABC123" cfgEmpty "H1"

/-- A second player who has accumulated 50 points. -/
def bobPlayer : Player :=
  { id := "P2", name := "Bob", score := 50, ready := false, prompt := none, image := none }

/-- The fresh room after `P2` joined and scored 50 points. -/
def roomTwo : Room := { roomFresh with players := roomFresh.players ++ [bobPlayer] }

/-- Round data in which both players have submitted prompts. -/
def rdTwo : RoundData :=
  { emptyRoundData with prompts := [("H1", "a cat"), ("P2", "a dog")] }

/-- The two-player room during a writing phase with an open gate. -/
def roomWriting : Room :=
  { roomTwo with roundData := some emptyRoundData, pending := true }

/-- The two-player room after its writing phase once `P2` has
disconnected: the prompts of both players are stored, but only `H1` is
still registered. -/
def roomDeparted : Room := { roomFresh with roundData := some rdTwo }

/-- The fresh room mid-game (not in the WAITING state). -/
def roomVoting : Room := { roomFresh with state := GameState.voting }

/-- A gateway that always succeeds. -/
def genOk : String → Except String String := fun _ => Except.ok "img"

/-- A gateway that always fails (timeout / API error, caught by the
orchestrator). -/
def genFail : String → Except String String := fun _ => Except.error "API error"

/-! # Theorems -/

/-! ## Tokenizer equivalence: `split(/\W+/)` versus word tokenization -/

lemma trailingEmpty_cons_cons (c d : Char) (cs : List Char) :
    trailingEmpty (c :: d :: cs) = trailingEmpty (d :: cs) := by
  simp [trailingEmpty, List.getLast?_cons_cons]

/-- `splitWAux` produces exactly the tokens of `specTokensAux` followed by
the trailing empty token of JS `split` (and the bare empty token on the
empty input when scanning a separator run). -/
lemma splitWAux_eq (n : Nat) :
    ∀ l : List Char, l.length ≤ n →
      (splitWAux l none =
        specTokensAux l none ++ (if l = [] then [[]] else trailingEmpty l)) ∧
      (∀ acc, splitWAux l (some acc) =
        specTokensAux l (some acc) ++ trailingEmpty l) := by
  induction n with
  | zero =>
    intro l hl
    have hnil : l = [] := List.length_eq_zero.mp (Nat.le_zero.mp hl)
    subst hnil
    refine ⟨by simp [splitWAux, specTokensAux], ?_⟩
    intro acc
    simp [splitWAux, specTokensAux, trailingEmpty]
  | succ n ih =>
    intro l hl
    cases l with
    | nil =>
      refine ⟨by simp [splitWAux, specTokensAux], ?_⟩
      intro acc
      simp [splitWAux, specTokensAux, trailingEmpty]
    | cons c cs =>
      have hcs : cs.length ≤ n := by simpa using hl
      have hne : (c :: cs) ≠ [] := by simp
      constructor
      · rw [if_neg hne]
        by_cases hw : isWordChar c
        · rw [show splitWAux (c :: cs) none = splitWAux cs (some [c]) from by
              simp [splitWAux, hw],
            show specTokensAux (c :: cs) none = specTokensAux cs (some [c]) from by
              simp [specTokensAux, hw],
            (ih cs hcs).2 [c]]
          congr 1
          cases cs with
          | nil => simp [trailingEmpty, hw]
          | cons d ds => rw [trailingEmpty_cons_cons]
        · rw [show splitWAux (c :: cs) none = splitWAux cs none from by
              simp [splitWAux, hw],
            show specTokensAux (c :: cs) none = specTokensAux cs none from by
              simp [specTokensAux, hw]]
          cases cs with
          | nil => simp [splitWAux, specTokensAux, trailingEmpty, hw]
          | cons d ds =>
            rw [(ih (d :: ds) hcs).1, if_neg (by simp), trailingEmpty_cons_cons]
      · intro acc
        by_cases hw : isWordChar c
        · rw [show splitWAux (c :: cs) (some acc) = splitWAux cs (some (c :: acc)) from by
              simp [splitWAux, hw],
            show specTokensAux (c :: cs) (some acc) = specTokensAux cs (some (c :: acc)) from by
              simp [specTokensAux, hw],
            (ih cs hcs).2 (c :: acc)]
          congr 1
          cases cs with
          | nil => simp [trailingEmpty, hw]
          | cons d ds => rw [trailingEmpty_cons_cons]
        · rw [show splitWAux (c :: cs) (some acc) = acc.reverse :: splitWAux cs none from by
              simp [splitWAux, hw],
            show specTokensAux (c :: cs) (some acc) = acc.reverse :: specTokensAux cs none from by
              simp [specTokensAux, hw]]
          cases cs with
          | nil => simp [splitWAux, specTokensAux, trailingEmpty, hw]
          | cons d ds =>
            rw [(ih (d :: ds) hcs).1, if_neg (by simp), trailingEmpty_cons_cons]
            simp

/-- Starting the scan in token-collection mode accounts exactly for the
leading empty token of JS `split`. -/
lemma specTokensAux_some_nil (l : List Char) :
    specTokensAux l (some []) = leadingEmpty l ++ specTokens l := by
  cases l with
  | nil => simp [specTokensAux, leadingEmpty, specTokens]
  | cons c cs =>
    by_cases hw : isWordChar c
    · simp [specTokensAux, specTokens, leadingEmpty, hw]
    · simp [specTokensAux, specTokens, leadingEmpty, hw]

/-- The recursive JS `split(/\W+/)` scanner equals its structural
description: words plus boundary empty tokens. -/
lemma splitW_eq_jsTokens (l : List Char) : splitW l = jsTokens l := by
  unfold splitW jsTokens
  rw [(splitWAux_eq l.length l le_rfl).2 [], specTokensAux_some_nil, List.append_assoc]

/-- The counting loop of `calculateSimilarity` counts the list elements
satisfying the membership test. -/
lemma foldl_count_eq_countP {α : Type} (p : α → Bool) (l : List α) :
    l.foldl (fun n w => if p w then n + 1 else n) 0 = l.countP p := by
  suffices h : ∀ m : Nat, l.foldl (fun n w => if p w then n + 1 else n) m = m + l.countP p by
    simpa using h 0
  induction l with
  | nil => intro m; simp
  | cons a l ih =>
    intro m
    simp only [List.foldl_cons]
    by_cases hp : p a
    · rw [ih, if_pos hp, List.countP_cons, if_pos hp]
      omega
    · rw [ih, if_neg hp, List.countP_cons, if_neg hp]
      omega

/-- C1 (amended): `calculateSimilarity` equals the reference definition
with the tokenization corrected to the JS `split(/\W+/)` semantics (an
empty token is retained at either boundary whenever the string starts or
ends with a non-word character) and with the candidate's tokens counted
with multiplicity against the original's token list. -/
theorem calculateSimilarity_eq_amended (a b : String) :
    calculateSimilarity a b = amendedSimilarity a b := by
  by_cases h : (a == "" || b == "") = true
  · simp [calculateSimilarity, amendedSimilarity, h]
  · simp only [calculateSimilarity, amendedSimilarity, h, if_false,
      splitW_eq_jsTokens, foldl_count_eq_countP]

lemma roomOnDisconnect_pending (sid : String) (r : Room) :
    (roomOnDisconnect sid r).pending = r.pending := by
  unfold roomOnDisconnect
  split
  · split
    · cases hdel : delPlayer sid r.players <;> simp [hdel]
    · rfl
  · rfl

lemma gateStep_cases (r : Room) (ev : GateEvent) :
    ((gateStep r ev).2 = true ∧ r.pending = true ∧ (gateStep r ev).1.pending = false) ∨
    ((gateStep r ev).2 = false ∧ (gateStep r ev).1.pending = r.pending) := by
  cases ev with
  | submit sid prompt =>
    cases hrd : r.roundData with
    | none =>
      right
      have hstep : gateStep r (GateEvent.submit sid prompt) = (r, false) := by
        simp [gateStep, handlePromptSubmission, hrd]
      rw [hstep]
      exact ⟨rfl, rfl⟩
    | some rd =>
      by_cases hcond : (r.pending && allSubmitted r.players (assocSet sid prompt rd.prompts)) = true
      · left
        have hstep : gateStep r (GateEvent.submit sid prompt) = ({ r with roundData := some { rd with prompts := assocSet sid prompt rd.prompts }, pending := false }, true) := by
          simp [gateStep, handlePromptSubmission, hrd, hcond]
        rw [hstep]
        exact ⟨rfl, ((Bool.and_eq_true _ _).mp hcond).1, rfl⟩
      · right
        have hstep : gateStep r (GateEvent.submit sid prompt) = ({ r with roundData := some { rd with prompts := assocSet sid prompt rd.prompts } }, false) := by
          simp [gateStep, handlePromptSubmission, hrd, hcond]
        rw [hstep]
        exact ⟨rfl, rfl⟩
  | timer =>
    by_cases hp : r.pending
    · left
      have hstep : gateStep r GateEvent.timer = ({ r with pending := false }, true) := by
        simp [gateStep, promptTimerFire, hp]
      rw [hstep]
      exact ⟨rfl, hp, rfl⟩
    · right
      have hstep : gateStep r GateEvent.timer = (r, false) := by
        simp [gateStep, promptTimerFire, hp]
      rw [hstep]
      exact ⟨rfl, rfl⟩
  | join p => right; exact ⟨rfl, rfl⟩
  | leave sid => right; exact ⟨rfl, roomOnDisconnect_pending sid r⟩

lemma execGate_resolved (evs : List GateEvent) :
    ∀ r : Room, r.pending = false →
      (execGate r evs).2 = 0 ∧ (execGate r evs).1.pending = false := by
  induction evs with
  | nil => intro r h; exact ⟨rfl, h⟩
  | cons ev evs ih =>
    intro r h
    rcases gateStep_cases r ev with ⟨_, hp, _⟩ | ⟨hb, hp⟩
    · rw [h] at hp; cases hp
    · have hrec := ih (gateStep r ev).1 (hp.trans h)
      refine ⟨?_, hrec.2⟩
      show (if (gateStep r ev).2 then 1 else 0) + (execGate (gateStep r ev).1 evs).2 = 0
      rw [hb, hrec.1]
      rfl

lemma execGate_open (evs : List GateEvent) :
    ∀ r : Room, r.pending = true →
      ((execGate r evs).2 = 0 ∧ (execGate r evs).1.pending = true) ∨
      ((execGate r evs).2 = 1 ∧ (execGate r evs).1.pending = false) := by
  induction evs with
  | nil => intro r h; left; exact ⟨rfl, h⟩
  | cons ev evs ih =>
    intro r h
    rcases gateStep_cases r ev with ⟨hb, _, hp'⟩ | ⟨hb, hp'⟩
    · right
      have hres := execGate_resolved evs (gateStep r ev).1 hp'
      refine ⟨?_, hres.2⟩
      show (if (gateStep r ev).2 then 1 else 0) + (execGate (gateStep r ev).1 evs).2 = 1
      rw [hb, hres.1]
      rfl
    · have h' : (gateStep r ev).1.pending = true := hp'.trans h
      rcases ih (gateStep r ev).1 h' with ⟨h0, hpend⟩ | ⟨h1, hpend⟩
      · left
        refine ⟨?_, hpend⟩
        show (if (gateStep r ev).2 then 1 else 0) + (execGate (gateStep r ev).1 evs).2 = 0
        rw [hb, h0]
        rfl
      · right
        refine ⟨?_, hpend⟩
        show (if (gateStep r ev).2 then 1 else 0) + (execGate (gateStep r ev).1 evs).2 = 1
        rw [hb, h1]
        rfl

lemma execGate_timer_pending (evs : List GateEvent) :
    ∀ r : Room, GateEvent.timer ∈ evs → (execGate r evs).1.pending = false := by
  induction evs with
  | nil => intro r h; cases h
  | cons ev evs ih =>
    intro r h
    by_cases hev : GateEvent.timer ∈ evs
    · exact ih (gateStep r ev).1 hev
    · have hevt : ev = GateEvent.timer := by
        rcases List.mem_cons.mp h with h' | h'
        · exact h'.symm
        · exact absurd h' hev
      subst hevt
      have hp : (gateStep r GateEvent.timer).1.pending = false := by
        unfold gateStep promptTimerFire
        by_cases hr : r.pending <;> simp [hr]
      exact (execGate_resolved evs _ hp).2

/-- C2: over any sequence of mid-phase events on a room whose gate is
open, the gate's resolver is invoked at most once; if the deadline timer
fires within the sequence it is invoked exactly once (whichever of
all-submitted or deadline comes first wins); and on a room whose gate is
already resolved (`pending = false`) any further event — a late
submission or the deadline firing — is a guarded no-op that does not
invoke the resolver again (so the phase cannot advance a second time). -/
theorem gate_resolves_exactly_once (room : Room) (evs : List GateEvent)
    (r : Room) (ev : GateEvent)
    (hopen : room.pending = true) (hres : r.pending = false) :
    (execGate room evs).2 ≤ 1 ∧
    (GateEvent.timer ∈ evs → (execGate room evs).2 = 1) ∧
    (gateStep r ev).2 = false ∧ (gateStep r ev).1.pending = false := by
  have hmain := execGate_open evs room hopen
  have hnoop : (gateStep r ev).2 = false ∧ (gateStep r ev).1.pending = false := by
    rcases gateStep_cases r ev with ⟨_, hp, _⟩ | ⟨hb, hp⟩
    · rw [hres] at hp; cases hp
    · exact ⟨hb, hp.trans hres⟩
  refine ⟨?_, ?_, hnoop.1, hnoop.2⟩
  · rcases hmain with ⟨h0, _⟩ | ⟨h1, _⟩ <;> omega
  · intro ht
    have hpend := execGate_timer_pending evs room ht
    rcases hmain with ⟨h0, hp⟩ | ⟨h1, _⟩
    · rw [hpend] at hp; cases hp
    · exact h1

/-- Witness for `gate_resolves_exactly_once`: a concrete open two-player
gate, the event sequence submit-timer-timer (a race in which the timer
fires twice more after resolution), and a concrete resolved room. -/
theorem gate_resolves_exactly_once_witness :
    roomWriting.pending = true ∧
    ({ roomWriting with pending := false } : Room).pending = false ∧
    (execGate roomWriting
      [GateEvent.submit "H1" "a", GateEvent.timer, GateEvent.timer]).2 = 1 :=
  ⟨rfl, rfl,
   (gate_resolves_exactly_once roomWriting
      [GateEvent.submit "H1" "a", GateEvent.timer, GateEvent.timer]
      { roomWriting with pending := false } GateEvent.timer rfl rfl).2.1
     (by simp)⟩

lemma findRoom_code (reg : Registry) (code : String) (room : Room)
    (h : findRoom reg code = some room) : room.code = code := by
  induction reg with
  | nil => cases h
  | cons q qs ih =>
    unfold findRoom at h
    by_cases hq : (q.code == code) = true
    · rw [if_pos hq] at h
      cases h
      exact eq_of_beq hq
    · rw [if_neg hq] at h
      exact ih h

lemma findRoom_updateRoom_self (reg : Registry) (r : Room) (code : String)
    (hc : r.code = code) (room : Room) (h : findRoom reg code = some room) :
    findRoom (updateRoom reg r) code = some r := by
  induction reg with
  | nil => cases h
  | cons q qs ih =>
    unfold findRoom at h
    unfold updateRoom
    by_cases hq : (q.code == r.code) = true
    · rw [if_pos hq]
      unfold findRoom
      rw [if_pos (by simp [hc])]
    · rw [if_neg hq]
      have hqc : (q.code == code) = false := by
        rw [← hc]
        exact Bool.eq_false_iff.mpr hq
      rw [hqc, if_neg (by simp [hqc])] at h
      unfold findRoom
      rw [if_neg (by simp [hqc])]
      exact ih h

lemma handlePromptSubmission_eq (room : Room) (sid prompt : String) (rd : RoundData)
    (hrd : room.roundData = some rd) :
    handlePromptSubmission room sid prompt = Except.ok
      ({ room with roundData := some { rd with prompts := assocSet sid prompt rd.prompts }, pending := room.pending && !(allSubmitted room.players (assocSet sid prompt rd.prompts)) },
       room.pending && allSubmitted room.players (assocSet sid prompt rd.prompts)) := by
  unfold handlePromptSubmission
  rw [hrd]
  cases hp : room.pending <;>
    cases ha : allSubmitted room.players (assocSet sid prompt rd.prompts) <;>
      simp [hp, ha]

/-- C9 (amended): a submit-prompt request for an existing room whose
`roundData` has been populated (its first round has begun) is always
acknowledged as accepted — even when the gate has already resolved — and
the prompt is recorded into `roundData.prompts`; when the gate is not
pending (late submission) recording is the only effect on the room. -/
theorem late_submission_recorded_no_effect (reg : Registry) (code sid prompt : String)
    (room : Room) (rd : RoundData)
    (hfind : findRoom reg code = some room) (hrd : room.roundData = some rd) :
    (submitPromptHandler reg code sid prompt).1.success = true ∧
    (∃ room', findRoom (submitPromptHandler reg code sid prompt).2 code = some room' ∧
      room'.roundData = some { rd with prompts := assocSet sid prompt rd.prompts } ∧
      (room.pending = false →
        room' = { room with
          roundData := some { rd with prompts := assocSet sid prompt rd.prompts } })) := by
  have heq := handlePromptSubmission_eq room sid prompt rd hrd
  simp only [submitPromptHandler, hfind, heq]
  refine ⟨trivial, ?_⟩
  refine ⟨_, findRoom_updateRoom_self reg _ code (findRoom_code reg code room hfind) room hfind,
    rfl, ?_⟩
  intro hp
  rw [hp]
  simp

lemma setPlayer_length_fresh (p : Player) (l : List Player)
    (h : l.all (fun q => !(q.id == p.id)) = true) :
    (setPlayer p l).length = l.length + 1 := by
  induction l with
  | nil => rfl
  | cons q qs ih =>
    rw [List.all_cons, Bool.and_eq_true] at h
    unfold setPlayer
    rw [if_neg (by simpa using h.1)]
    simp [ih h.2]

lemma setPlayer_length_mem (p : Player) (l : List Player)
    (h : l.any (fun q => q.id == p.id) = true) :
    (setPlayer p l).length = l.length := by
  induction l with
  | nil => cases h
  | cons q qs ih =>
    rw [List.any_cons, Bool.or_eq_true] at h
    unfold setPlayer
    by_cases hq : (q.id == p.id) = true
    · rw [if_pos hq]
      rfl
    · rw [if_neg hq]
      rcases h with h | h
      · exact absurd h hq
      · simp [ih h]

lemma findPlayer_setPlayer_self (p : Player) (l : List Player) :
    findPlayer p.id (setPlayer p l) = some p := by
  induction l with
  | nil =>
    unfold setPlayer findPlayer
    rw [if_pos (beq_self_eq_true _)]
  | cons q qs ih =>
    unfold setPlayer
    by_cases hq : (q.id == p.id) = true
    · rw [if_pos hq]
      unfold findPlayer
      rw [if_pos (beq_self_eq_true _)]
    · rw [if_neg hq]
      unfold findPlayer
      rw [if_neg hq]
      exact ih

/-- C6 (amended): `joinRoom` on an unknown code fails with the not-found
reason; on a room at or above capacity it fails with the full reason; on
a room under capacity it succeeds and inserts the new player (score 0,
defaulted name) — growing the player count by exactly one when the id is
not already present, and overwriting the existing entry (count unchanged)
when it is. -/
theorem joinRoom_boundary_spec (mp : Nat) (reg : Registry) (code sid name : String) :
    (findRoom reg code = none →
      joinRoom mp reg code sid name =
        ({ success := false, message := "Room does not exist." }, reg)) ∧
    (∀ room, findRoom reg code = some room → mp ≤ room.players.length →
      joinRoom mp reg code sid name = ({ success := false, message := "Room is full." }, reg)) ∧
    (∀ room, findRoom reg code = some room → room.players.length < mp →
      (joinRoom mp reg code sid name).1 =
        { success := true, message := "Joined room successfully." } ∧
      ∃ room', findRoom (joinRoom mp reg code sid name).2 code = some room' ∧
        room'.players = setPlayer (mkJoinPlayer sid name) room.players ∧
        findPlayer sid room'.players = some (mkJoinPlayer sid name) ∧
        (room.players.all (fun q => !(q.id == sid)) = true →
          room'.players.length = room.players.length + 1) ∧
        (room.players.any (fun q => q.id == sid) = true →
          room'.players.length = room.players.length)) := by
  refine ⟨?_, ?_, ?_⟩
  · intro h
    unfold joinRoom
    rw [h]
  · intro room h hcap
    simp only [joinRoom, h]
    rw [if_pos hcap]
  · intro room h hcap
    simp only [joinRoom, h]
    rw [if_neg (not_le.mpr hcap)]
    refine ⟨rfl, ?_⟩
    refine ⟨_, findRoom_updateRoom_self reg _ code (findRoom_code reg code room h) room h,
      rfl, ?_, ?_, ?_⟩
    · exact findPlayer_setPlayer_self (mkJoinPlayer sid name) room.players
    · intro hall
      exact setPlayer_length_fresh _ _ hall
    · intro hany
      exact setPlayer_length_mem _ _ hany

/-- Witness for `late_submission_recorded_no_effect`: a concrete room
with an initialized round and a resolved gate accepts a late prompt. -/
theorem late_submission_recorded_no_effect_witness :
    findRoom [{ roomWriting with pending := false }] "ABC123" =
      some { roomWriting with pending := false } ∧
    ({ roomWriting with pending := false } : Room).roundData = some emptyRoundData ∧
    (submitPromptHandler [{ roomWriting with pending := false }]
      "ABC123" "P2" "late").1.success = true :=
  ⟨by decide, rfl,
   (late_submission_recorded_no_effect [{ roomWriting with pending := false }]
      "ABC123" "P2" "late" { roomWriting with pending := false } emptyRoundData
      (by decide) rfl).1⟩

/-- Witness for `joinRoom_boundary_spec`: a fresh player joins the
two-player room under the default capacity. -/
theorem joinRoom_boundary_spec_witness :
    findRoom [roomTwo] "ABC123" = some roomTwo ∧
    roomTwo.players.length < 6 ∧
    (joinRoom 6 [roomTwo] "ABC123" "P3" "Carol").1 =
      { success := true, message := "Joined room successfully." } :=
  ⟨by decide, by decide,
   ((joinRoom_boundary_spec 6 [roomTwo] "ABC123" "P3" "Carol").2.2 roomTwo
      (by decide) (by decide)).1⟩


lemma assocFind_assocSet_self {α : Type} (k : String) (v : α) (m : List (String × α)) :
    assocFind k (assocSet k v m) = some v := by
  induction m with
  | nil =>
    unfold assocSet assocFind
    rw [if_pos (beq_self_eq_true _)]
  | cons e rest ih =>
    unfold assocSet
    by_cases he : (e.1 == k) = true
    · rw [if_pos he]
      unfold assocFind
      rw [if_pos (beq_self_eq_true _)]
    · rw [if_neg he]
      unfold assocFind
      rw [if_neg he]
      exact ih

lemma assocFind_assocSet_ne {α : Type} (k k' : String) (v : α) (m : List (String × α))
    (h : (k' == k) = false) :
    assocFind k (assocSet k' v m) = assocFind k m := by
  induction m with
  | nil => simp [assocSet, assocFind, h]
  | cons e rest ih =>
    unfold assocSet
    by_cases he : (e.1 == k') = true
    · rw [if_pos he]
      simp [assocFind, h, eq_of_beq he]
    · rw [if_neg he]
      unfold assocFind
      by_cases hek : (e.1 == k) = true
      · rw [if_pos hek, if_pos hek]
      · rw [if_neg hek, if_neg hek]
        exact ih

lemma truthyPromptOf_congr (rd1 rd2 : RoundData) (pid : String)
    (h : rd1.prompts = rd2.prompts) :
    truthyPromptOf rd1 pid = truthyPromptOf rd2 pid := by
  unfold truthyPromptOf
  rw [h]

lemma imageResult_congr (gen : String → Except String String) (rd1 rd2 : RoundData)
    (pid : String) (h : rd1.prompts = rd2.prompts) :
    imageResult gen rd1 pid = imageResult gen rd2 pid := by
  unfold imageResult
  rw [truthyPromptOf_congr rd1 rd2 pid h]

lemma scoreResult_congr (orig : String) (rd1 rd2 : RoundData) (pid : String)
    (h : rd1.prompts = rd2.prompts) :
    scoreResult orig rd1 pid = scoreResult orig rd2 pid := by
  unfold scoreResult
  rw [truthyPromptOf_congr rd1 rd2 pid h]

lemma genImageStep_prompts (gen : String → Except String String) (rd : RoundData)
    (pid : String) : (genImageStep gen rd pid).prompts = rd.prompts := by
  unfold genImageStep
  rcases htp : truthyPromptOf rd pid with _ | prompt
  · rfl
  · cases hg : gen prompt <;> simp [hg]

lemma genImageStep_scores (gen : String → Except String String) (rd : RoundData)
    (pid : String) : (genImageStep gen rd pid).scores = rd.scores := by
  unfold genImageStep
  rcases htp : truthyPromptOf rd pid with _ | prompt
  · rfl
  · cases hg : gen prompt <;> simp [hg]

lemma genImageStep_images_self (gen : String → Except String String) (rd : RoundData)
    (pid : String) :
    assocFind pid (genImageStep gen rd pid).images = some (imageResult gen rd pid) := by
  unfold genImageStep imageResult
  rcases htp : truthyPromptOf rd pid with _ | prompt
  · simp [assocFind_assocSet_self]
  · cases hg : gen prompt <;> simp [hg, assocFind_assocSet_self]

lemma genImageStep_images_ne (gen : String → Except String String) (rd : RoundData)
    (q pid : String) (h : (q == pid) = false) :
    assocFind pid (genImageStep gen rd q).images = assocFind pid rd.images := by
  unfold genImageStep
  rcases htp : truthyPromptOf rd q with _ | prompt
  · simp [assocFind_assocSet_ne _ _ _ _ h]
  · cases hg : gen prompt <;> simp [hg, assocFind_assocSet_ne _ _ _ _ h]

lemma generateImagesPhase_prompts (gen : String → Except String String)
    (l : List String) : ∀ rd : RoundData, (generateImagesPhase gen l rd).prompts = rd.prompts := by
  induction l with
  | nil => intro rd; rfl
  | cons pid ps ih =>
    intro rd
    rw [show generateImagesPhase gen (pid :: ps) rd
        = generateImagesPhase gen ps (genImageStep gen rd pid) from rfl,
      ih, genImageStep_prompts]

lemma generateImagesPhase_scores (gen : String → Except String String)
    (l : List String) : ∀ rd : RoundData, (generateImagesPhase gen l rd).scores = rd.scores := by
  induction l with
  | nil => intro rd; rfl
  | cons pid ps ih =>
    intro rd
    rw [show generateImagesPhase gen (pid :: ps) rd
        = generateImagesPhase gen ps (genImageStep gen rd pid) from rfl,
      ih, genImageStep_scores]

lemma generateImagesPhase_images_not_mem (gen : String → Except String String)
    (l : List String) (pid : String) (h : ¬ pid ∈ l) :
    ∀ rd : RoundData,
      assocFind pid (generateImagesPhase gen l rd).images = assocFind pid rd.images := by
  induction l with
  | nil => intro rd; rfl
  | cons q qs ih =>
    intro rd
    have hq : ¬ pid = q := fun he => h (he ▸ List.mem_cons_self q qs)
    have hqs : ¬ pid ∈ qs := fun he => h (List.mem_cons_of_mem q he)
    rw [show generateImagesPhase gen (q :: qs) rd
        = generateImagesPhase gen qs (genImageStep gen rd q) from rfl,
      ih hqs, genImageStep_images_ne]
    exact beq_eq_false_iff_ne.mpr fun he => hq he.symm

lemma generateImagesPhase_images_mem (gen : String → Except String String)
    (l : List String) (pid : String) (h : pid ∈ l) :
    ∀ rd : RoundData,
      assocFind pid (generateImagesPhase gen l rd).images = some (imageResult gen rd pid) := by
  induction l with
  | nil => cases h
  | cons q qs ih =>
    intro rd
    rw [show generateImagesPhase gen (q :: qs) rd
        = generateImagesPhase gen qs (genImageStep gen rd q) from rfl]
    by_cases hqs : pid ∈ qs
    · rw [ih hqs, imageResult_congr gen _ rd pid (genImageStep_prompts gen rd q)]
    · have hq : pid = q := by
        rcases List.mem_cons.mp h with h' | h'
        · exact h'
        · exact absurd h' hqs
      subst hq
      rw [generateImagesPhase_images_not_mem gen qs pid hqs, genImageStep_images_self]

lemma scoreStep_prompts (orig : String) (rd : RoundData) (pid : String) :
    (scoreStep orig rd pid).prompts = rd.prompts := rfl

lemma scoreStep_images (orig : String) (rd : RoundData) (pid : String) :
    (scoreStep orig rd pid).images = rd.images := rfl

lemma scoreStep_scores_self (orig : String) (rd : RoundData) (pid : String) :
    assocFind pid (scoreStep orig rd pid).scores = some (scoreResult orig rd pid) := by
  unfold scoreStep scoreResult
  exact assocFind_assocSet_self _ _ _

lemma scoreStep_scores_ne (orig : String) (rd : RoundData) (q pid : String)
    (h : (q == pid) = false) :
    assocFind pid (scoreStep orig rd q).scores = assocFind pid rd.scores := by
  unfold scoreStep
  exact assocFind_assocSet_ne _ _ _ _ h

lemma scoringPhase_prompts (orig : String) (l : List String) :
    ∀ rd : RoundData, (scoringPhase orig l rd).prompts = rd.prompts := by
  induction l with
  | nil => intro rd; rfl
  | cons pid ps ih =>
    intro rd
    rw [show scoringPhase orig (pid :: ps) rd
        = scoringPhase orig ps (scoreStep orig rd pid) from rfl, ih, scoreStep_prompts]

lemma scoringPhase_scores_not_mem (orig : String) (l : List String) (pid : String)
    (h : ¬ pid ∈ l) :
    ∀ rd : RoundData,
      assocFind pid (scoringPhase orig l rd).scores = assocFind pid rd.scores := by
  induction l with
  | nil => intro rd; rfl
  | cons q qs ih =>
    intro rd
    have hq : ¬ pid = q := fun he => h (he ▸ List.mem_cons_self q qs)
    have hqs : ¬ pid ∈ qs := fun he => h (List.mem_cons_of_mem q he)
    rw [show scoringPhase orig (q :: qs) rd
        = scoringPhase orig qs (scoreStep orig rd q) from rfl,
      ih hqs, scoreStep_scores_ne]
    exact beq_eq_false_iff_ne.mpr fun he => hq he.symm

lemma scoringPhase_scores_mem (orig : String) (l : List String) (pid : String)
    (h : pid ∈ l) :
    ∀ rd : RoundData,
      assocFind pid (scoringPhase orig l rd).scores = some (scoreResult orig rd pid) := by
  induction l with
  | nil => cases h
  | cons q qs ih =>
    intro rd
    rw [show scoringPhase orig (q :: qs) rd
        = scoringPhase orig qs (scoreStep orig rd q) from rfl]
    by_cases hqs : pid ∈ qs
    · rw [ih hqs, scoreResult_congr orig _ rd pid (scoreStep_prompts orig rd q)]
    · have hq : pid = q := by
        rcases List.mem_cons.mp h with h' | h'
        · exact h'
        · exact absurd h' hqs
      subst hq
      rw [scoringPhase_scores_not_mem orig qs pid hqs, scoreStep_scores_self]

/-- C4 (amended): every snapshotted player is processed regardless of the
gateway's outcome for any player: the stored image is the generated one
on success and null on a caught gateway failure or when the player has no
truthy prompt; the stored round score is computed from the stored prompt
alone — `calculateSimilarity` of the prompt against the original when one
is present, 0 only when none is — independent of whether image generation
succeeded. -/
theorem images_and_scores_per_player (gen : String → Except String String) (orig : String)
    (snapshot : List String) (rd : RoundData) (pid : String) (hmem : pid ∈ snapshot) :
    assocFind pid (generateImagesPhase gen snapshot rd).images
      = some (imageResult gen rd pid) ∧
    assocFind pid (scoringPhase orig snapshot (generateImagesPhase gen snapshot rd)).scores
      = some (scoreResult orig rd pid) ∧
    (truthyPromptOf rd pid = none →
      imageResult gen rd pid = none ∧ scoreResult orig rd pid = 0) ∧
    (∀ prompt e, truthyPromptOf rd pid = some prompt → gen prompt = Except.error e →
      imageResult gen rd pid = none) := by
  refine ⟨generateImagesPhase_images_mem gen snapshot pid hmem rd, ?_, ?_, ?_⟩
  · rw [scoringPhase_scores_mem orig snapshot pid hmem _,
      scoreResult_congr orig _ rd pid (generateImagesPhase_prompts gen snapshot rd)]
  · intro h
    unfold imageResult scoreResult
    rw [h]
    exact ⟨rfl, rfl⟩
  · intro prompt e hp hg
    unfold imageResult
    rw [hp]
    simp [hg]

/-- Witness for `images_and_scores_per_player`: player `H1` of the
two-player round snapshot, with the always-failing gateway. -/
theorem images_and_scores_per_player_witness :
    ("H1" ∈ ["H1", "P2"]) ∧
    assocFind "H1" (generateImagesPhase genFail ["H1", "P2"] rdTwo).images
      = some (imageResult genFail rdTwo "H1") ∧
    assocFind "H1"
        (scoringPhase "a cat" ["H1", "P2"]
          (generateImagesPhase genFail ["H1", "P2"] rdTwo)).scores
      = some (scoreResult "a cat" rdTwo "H1") :=
  ⟨by simp,
   (images_and_scores_per_player genFail "a cat" ["H1", "P2"] rdTwo "H1" (by simp)).1,
   (images_and_scores_per_player genFail "a cat" ["H1", "P2"] rdTwo "H1" (by simp)).2.1⟩


lemma mem_delPlayer_of_ne (sid : String) (q : Player) :
    ∀ l : List Player, q ∈ l → (q.id == sid) = false → q ∈ delPlayer sid l := by
  intro l
  induction l with
  | nil => intro h _; cases h
  | cons e es ih =>
    intro hq hne
    unfold delPlayer
    by_cases he : (e.id == sid) = true
    · rw [if_pos he]
      rcases List.mem_cons.mp hq with rfl | hq'
      · rw [he] at hne; cases hne
      · exact hq'
    · rw [if_neg he]
      rcases List.mem_cons.mp hq with rfl | hq'
      · exact List.mem_cons_self _ _
      · exact List.mem_cons_of_mem _ (ih hq' hne)

lemma delPlayer_subset (sid : String) :
    ∀ l : List Player, ∀ q ∈ delPlayer sid l, q ∈ l := by
  intro l
  induction l with
  | nil => intro q h; cases h
  | cons e es ih =>
    intro q hq
    unfold delPlayer at hq
    by_cases he : (e.id == sid) = true
    · rw [if_pos he] at hq
      exact List.mem_cons_of_mem _ hq
    · rw [if_neg he] at hq
      rcases List.mem_cons.mp hq with rfl | hq'
      · exact List.mem_cons_self _ _
      · exact List.mem_cons_of_mem _ (ih q hq')

lemma removePlayer_no_mem (sid : String) :
    ∀ reg : Registry,
      (∀ r ∈ reg, r.players.any (fun q => q.id == sid) = false) →
      removePlayer sid reg = reg := by
  intro reg
  induction reg with
  | nil => intro _; rfl
  | cons room rest ih =>
    intro h
    have hf := h room (List.mem_cons_self _ _)
    unfold removePlayer
    rw [if_neg (by simp [hf]), ih (fun r hr => h r (List.mem_cons_of_mem _ hr))]

/-- Host succession under `removePlayer`, by induction over the registry. -/
lemma removePlayer_aux (sid : String) :
    ∀ reg : Registry,
      (∀ r ∈ reg, r.players.any (fun q => q.id == r.host) = true) →
      ((reg.map Room.code).Nodup) →
      ((reg.filter (fun r => r.players.any (fun q => q.id == sid))).length ≤ 1) →
      (∀ r' ∈ removePlayer sid reg, r'.players.any (fun q => q.id == r'.host) = true) ∧
      (∀ r ∈ reg, r.players.any (fun q => q.id == sid) = true → r.host = sid →
        (∀ p prest, delPlayer sid r.players = p :: prest →
          ∃ r' ∈ removePlayer sid reg, r'.code = r.code ∧
            r'.players = delPlayer sid r.players ∧ r'.host = p.id ∧ p ∈ r.players) ∧
        (delPlayer sid r.players = [] →
          ∀ r' ∈ removePlayer sid reg, r'.code ≠ r.code)) := by
  intro reg
  induction reg with
  | nil =>
    intro _ _ _
    exact ⟨fun r' h => absurd h (List.not_mem_nil r'), fun r h => absurd h (List.not_mem_nil r)⟩
  | cons room rest ih =>
    intro hhost hcodes hone
    have hcodes' : (rest.map Room.code).Nodup := (List.nodup_cons.mp (by simpa using hcodes)).2
    have hnotin : room.code ∉ rest.map Room.code := (List.nodup_cons.mp (by simpa using hcodes)).1
    by_cases hf : room.players.any (fun q => q.id == sid) = true
    · -- the head room contains the player; no other room does
      have hrest0 : ∀ r ∈ rest, r.players.any (fun q => q.id == sid) = false := by
        rw [List.filter_cons] at hone
        simp only [hf, if_true, List.length_cons] at hone
        have hlen : (rest.filter (fun r => r.players.any (fun q => q.id == sid))).length = 0 := by
          omega
        have hnil := List.length_eq_zero.mp hlen
        intro r hr
        have := List.filter_eq_nil_iff.mp hnil r hr
        simpa using this
      have hrp : removePlayer sid rest = rest := removePlayer_no_mem sid rest hrest0
      by_cases hh : (room.host == sid) = true
      · cases hdel : delPlayer sid room.players with
        | nil =>
          have hres : removePlayer sid (room :: rest) = rest := by
            simp [removePlayer, hf, hh, hdel]
          constructor
          · intro r' hr'
            rw [hres] at hr'
            exact hhost r' (List.mem_cons_of_mem room hr')
          · intro r hr hfr hhr
            rcases List.mem_cons.mp hr with heq | hrr
            · subst heq
              refine ⟨?_, ?_⟩
              · intro p prest hp
                rw [hdel] at hp
                cases hp
              · intro _ r' hr'
                rw [hres] at hr'
                intro he
                exact hnotin (he ▸ List.mem_map_of_mem Room.code hr')
            · rw [hrest0 r hrr] at hfr
              cases hfr
        | cons p prest =>
          have hres : removePlayer sid (room :: rest) =
              { room with players := delPlayer sid room.players, host := p.id } :: rest := by
            simp [removePlayer, hf, hh, hdel, hrp]
          constructor
          · intro r' hr'
            rw [hres] at hr'
            rcases List.mem_cons.mp hr' with rfl | hrr
            · rw [List.any_eq_true]
              refine ⟨p, ?_, beq_self_eq_true _⟩
              show p ∈ delPlayer sid room.players
              rw [hdel]
              exact List.mem_cons_self _ _
            · exact hhost r' (List.mem_cons_of_mem room hrr)
          · intro r hr hfr hhr
            rcases List.mem_cons.mp hr with heq | hrr
            · subst heq
              refine ⟨?_, ?_⟩
              · intro p' prest' hp'
                rw [hdel] at hp'
                have h1 : p = p' := (List.cons_eq_cons.mp hp').1
                refine ⟨{ r with players := delPlayer sid r.players, host := p.id }, ?_, rfl, rfl, ?_, ?_⟩
                · rw [hres]
                  exact List.mem_cons_self _ _
                · rw [h1]
                · rw [← h1]
                  exact delPlayer_subset sid r.players p
                    (by rw [hdel]; exact List.mem_cons_self _ _)
              · intro hnil
                rw [hdel] at hnil
                cases hnil
            · rw [hrest0 r hrr] at hfr
              cases hfr
      · -- a non-host member leaves the head room
        have hres : removePlayer sid (room :: rest) =
            { room with players := delPlayer sid room.players } :: rest := by
          simp [removePlayer, hf, hh, hrp]
        constructor
        · intro r' hr'
          rw [hres] at hr'
          rcases List.mem_cons.mp hr' with rfl | hrr
          · rcases List.any_eq_true.mp (hhost room (List.mem_cons_self _ _)) with ⟨e, he, heid⟩
            rw [List.any_eq_true]
            refine ⟨e, ?_, heid⟩
            apply mem_delPlayer_of_ne sid e room.players he
            rw [eq_of_beq heid]
            exact Bool.eq_false_iff.mpr hh
          · exact hhost r' (List.mem_cons_of_mem room hrr)
        · intro r hr hfr hhr
          rcases List.mem_cons.mp hr with heq | hrr
          · subst heq
            exact absurd (by rw [hhr]; exact beq_self_eq_true sid) hh
          · rw [hrest0 r hrr] at hfr
            cases hfr
    · -- the head room does not contain the player
      have hres : removePlayer sid (room :: rest) = room :: removePlayer sid rest := by
        simp [removePlayer, hf]
      have hone' :
          ((rest.filter (fun r => r.players.any (fun q => q.id == sid))).length ≤ 1) := by
        rw [List.filter_cons_of_neg (by simpa using hf)] at hone
        exact hone
      obtain ⟨ih1, ih2⟩ :=
        ih (fun r hr => hhost r (List.mem_cons_of_mem _ hr)) hcodes' hone'
      constructor
      · intro r' hr'
        rw [hres] at hr'
        rcases List.mem_cons.mp hr' with heq' | hrr
        · rw [heq']
          exact hhost room (List.mem_cons_self _ _)
        · exact ih1 r' hrr
      · intro r hr hfr hhr
        rcases List.mem_cons.mp hr with heq | hrr
        · subst heq
          exact absurd hfr hf
        · obtain ⟨ihA, ihB⟩ := ih2 r hrr hfr hhr
          refine ⟨?_, ?_⟩
          · intro p prest hp
            obtain ⟨r', hmem, h1, h2, h3, h4⟩ := ihA p prest hp
            refine ⟨r', ?_, h1, h2, h3, h4⟩
            rw [hres]
            exact List.mem_cons_of_mem _ hmem
          · intro hnil r' hr'
            rw [hres] at hr'
            rcases List.mem_cons.mp hr' with rfl | hrr'
            · intro he
              exact hnotin (he ▸ List.mem_map_of_mem Room.code hrr)
            · exact ihB hnil r' hrr'

/-- C7: assuming the registry invariants (each room's host is a member,
room codes are unique, the departing player is in at most one room),
`removePlayer` preserves "every live room's host is a current member";
when the removed player was a room's host and other members remain, the
room survives with exactly the first remaining member promoted to host;
and when no members remain the room is deleted from the registry. -/
theorem removePlayer_host_succession (sid : String) (reg : Registry)
    (hhost : ∀ r ∈ reg, r.players.any (fun q => q.id == r.host) = true)
    (hcodes : (reg.map Room.code).Nodup)
    (hone : (reg.filter (fun r => r.players.any (fun q => q.id == sid))).length ≤ 1) :
    (∀ r' ∈ removePlayer sid reg, r'.players.any (fun q => q.id == r'.host) = true) ∧
    (∀ r ∈ reg, r.players.any (fun q => q.id == sid) = true → r.host = sid →
      (∀ p prest, delPlayer sid r.players = p :: prest →
        ∃ r' ∈ removePlayer sid reg, r'.code = r.code ∧
          r'.players = delPlayer sid r.players ∧ r'.host = p.id ∧ p ∈ r.players) ∧
      (delPlayer sid r.players = [] →
        ∀ r' ∈ removePlayer sid reg, r'.code ≠ r.code)) :=
  removePlayer_aux sid reg hhost hcodes hone

/-- Witness for `removePlayer_host_succession`: the host `H1` leaves the
two-player room; the remaining player `P2` is promoted. -/
theorem removePlayer_host_succession_witness :
    roomTwo.host = "H1" ∧
    delPlayer "H1" roomTwo.players = [bobPlayer] ∧
    (∃ r' ∈ removePlayer "H1" [roomTwo], r'.code = roomTwo.code ∧
      r'.players = delPlayer "H1" roomTwo.players ∧ r'.host = bobPlayer.id ∧
      bobPlayer ∈ roomTwo.players) :=
  ⟨rfl, by decide,
   ((removePlayer_host_succession "H1" [roomTwo] (by decide) (by decide) (by decide)).2
      roomTwo (List.mem_cons_self _ _) (by decide) rfl).1 bobPlayer [] (by decide)⟩


lemma splitWAux_ne_nil (l : List Char) : ∀ o, splitWAux l o ≠ [] := by
  induction l with
  | nil => intro o; cases o <;> simp [splitWAux]
  | cons c cs ih =>
    intro o
    cases o with
    | some acc =>
      by_cases hw : isWordChar c
      · simpa [splitWAux, hw] using ih (some (c :: acc))
      · simp [splitWAux, hw]
    | none =>
      by_cases hw : isWordChar c
      · simpa [splitWAux, hw] using ih (some [c])
      · simpa [splitWAux, hw] using ih none

lemma jsRound_le_100 (o m : Nat) (h1 : o ≤ m) (h2 : 0 < m) :
    jsRound (o * 100) m ≤ 100 := by
  unfold jsRound
  have hlt : 2 * (o * 100) + m < 101 * (2 * m) := by omega
  have := (Nat.div_lt_iff_lt_mul (by omega : 0 < 2 * m)).mpr hlt
  omega

lemma calculateSimilarity_le_100 (a b : String) : calculateSimilarity a b ≤ 100 := by
  unfold calculateSimilarity
  by_cases h : (a == "" || b == "") = true
  · simp [h]
  · rw [if_neg h]
    have h1 : (splitW (b.toList.map Char.toLower)).foldl
        (fun n w => if (splitW (a.toList.map Char.toLower)).contains w then n + 1 else n) 0
        ≤ max (splitW (a.toList.map Char.toLower)).length
            (splitW (b.toList.map Char.toLower)).length := by
      rw [foldl_count_eq_countP]
      exact le_trans (List.countP_le_length _) (le_max_right _ _)
    have h2 : 0 < max (splitW (a.toList.map Char.toLower)).length
        (splitW (b.toList.map Char.toLower)).length :=
      lt_of_lt_of_le (List.length_pos.mpr (splitWAux_ne_nil _ _)) (le_max_left _ _)
    exact jsRound_le_100 _ _ h1 h2

lemma scoreResult_le_100 (orig : String) (rd : RoundData) (pid : String) :
    scoreResult orig rd pid ≤ 100 := by
  unfold scoreResult
  rcases htp : truthyPromptOf rd pid with _ | prompt
  · simp
  · simpa using calculateSimilarity_le_100 orig prompt

lemma mem_id_unique : ∀ l : List Player, (l.map Player.id).Nodup →
    ∀ p ∈ l, ∀ p' ∈ l, p'.id = p.id → p' = p := by
  intro l
  induction l with
  | nil => intro _ p hp; cases hp
  | cons q qs ih =>
    intro hnd p hp p' hp' hid
    have hq : q.id ∉ qs.map Player.id := (List.nodup_cons.mp hnd).1
    have hnd' : (qs.map Player.id).Nodup := (List.nodup_cons.mp hnd).2
    rcases List.mem_cons.mp hp with heq | hps
    · rcases List.mem_cons.mp hp' with heq' | hps'
      · rw [heq', heq]
      · subst heq
        exact absurd (hid ▸ List.mem_map_of_mem Player.id hps') hq
    · rcases List.mem_cons.mp hp' with heq' | hps'
      · subst heq'
        exact absurd (by rw [hid]; exact List.mem_map_of_mem Player.id hps) hq
      · exact ih hnd' p hps p' hps' hid

lemma updScore_map_id (pid : String) (v : Nat) (l : List Player) :
    (l.map (fun q => if q.id == pid then { q with score := q.score + v } else q)).map Player.id
      = l.map Player.id := by
  induction l with
  | nil => rfl
  | cons q qs ih =>
    have hhead : (if (q.id == pid) = true then { q with score := q.score + v } else q).id
        = q.id := by
      by_cases h : (q.id == pid) = true <;> simp [h]
    rw [List.map_cons, List.map_cons, hhead, ih]
    rfl

lemma setPlayer_of_fresh (p : Player) : ∀ l : List Player,
    l.all (fun q => !(q.id == p.id)) = true → setPlayer p l = l ++ [p] := by
  intro l
  induction l with
  | nil => intro _; rfl
  | cons q qs ih =>
    intro h
    rw [List.all_cons, Bool.and_eq_true] at h
    unfold setPlayer
    rw [if_neg (by simpa using h.1), ih h.2]
    rfl

lemma findRoom_append (reg : Registry) (x : Room) (code : String) (room : Room)
    (h : findRoom reg code = some room) :
    findRoom (reg ++ [x]) code = some room := by
  induction reg with
  | nil => cases h
  | cons q qs ih =>
    rw [List.cons_append]
    unfold findRoom at h ⊢
    by_cases hq : (q.code == code) = true
    · rw [if_pos hq] at h ⊢
      exact h
    · rw [if_neg hq] at h ⊢
      exact ih h

lemma findRoom_updateRoom_ne (reg : Registry) (r : Room) (code : String)
    (h : ¬ r.code = code) :
    findRoom (updateRoom reg r) code = findRoom reg code := by
  induction reg with
  | nil => rfl
  | cons q qs ih =>
    unfold updateRoom
    by_cases hq : (q.code == r.code) = true
    · rw [if_pos hq]
      unfold findRoom
      rw [if_neg (by simpa using h), if_neg ?_]
      have : q.code = r.code := eq_of_beq hq
      rw [this]
      simpa using h
    · rw [if_neg hq]
      unfold findRoom
      by_cases hqc : (q.code == code) = true
      · rw [if_pos hqc, if_pos hqc]
      · rw [if_neg hqc, if_neg hqc]
        exact ih

lemma findRoom_eq_none_of_not_mem (reg : Registry) (code : String)
    (h : code ∉ reg.map Room.code) : findRoom reg code = none := by
  induction reg with
  | nil => rfl
  | cons q qs ih =>
    unfold findRoom
    rw [if_neg ?_]
    · exact ih (fun hm => h (List.mem_cons_of_mem _ hm))
    · intro hq
      exact h (by rw [← eq_of_beq hq]; exact List.mem_cons_self _ _)

lemma accumulateScores_cons (rd : RoundData) (pid : String) (rest : List String)
    (room : Room) :
    accumulateScores (pid :: rest) rd room =
      match findPlayer pid room.players with
      | some _ => accumulateScores rest rd
          { room with players := room.players.map (fun q =>
              if q.id == pid then
                { q with score := q.score + (assocFind pid rd.scores).getD 0 }
              else q) }
      | none => Except.error "TypeError: cannot read score of undefined" := by
  cases hfp : findPlayer pid room.players with
  | none => simp [accumulateScores, List.foldlM, hfp, Bind.bind, Except.bind]
  | some w => simp [accumulateScores, List.foldlM, hfp, Bind.bind, Except.bind]

lemma accumulateScores_ok (rd : RoundData) :
    ∀ (snapshot : List String) (room room' : Room),
      accumulateScores snapshot rd room = Except.ok room' →
      snapshot.Nodup →
      (room.players.map Player.id).Nodup →
      room'.code = room.code ∧
      (∀ p ∈ room.players, ∀ p' ∈ room'.players, p'.id = p.id →
        p'.score = p.score +
          (if p.id ∈ snapshot then (assocFind p.id rd.scores).getD 0 else 0)) := by
  intro snapshot
  induction snapshot with
  | nil =>
    intro room room' h _ hnd
    have hrr : room = room' := Except.ok.inj h
    subst hrr
    refine ⟨rfl, ?_⟩
    intro p hp p' hp' hid
    rw [mem_id_unique room.players hnd p hp p' hp' hid]
    simp
  | cons pid rest ih =>
    intro room room' h hnod hnd
    rw [accumulateScores_cons] at h
    cases hfp : findPlayer pid room.players with
    | none =>
      rw [hfp] at h
      cases h
    | some w =>
      rw [hfp] at h
      have hnd1 : ((room.players.map (fun q =>
          if q.id == pid then
            { q with score := q.score + (assocFind pid rd.scores).getD 0 }
          else q)).map Player.id).Nodup := by
        rw [updScore_map_id]
        exact hnd
      obtain ⟨hcode, hsc⟩ := ih _ room' h (List.Nodup.of_cons hnod) hnd1
      refine ⟨hcode, ?_⟩
      intro p hp p' hp' hid
      have hq1 : (if p.id == pid then
          { p with score := p.score + (assocFind pid rd.scores).getD 0 } else p)
          ∈ room.players.map (fun q =>
            if q.id == pid then
              { q with score := q.score + (assocFind pid rd.scores).getD 0 }
            else q) := List.mem_map_of_mem _ hp
      have hqid : (if p.id == pid then
          { p with score := p.score + (assocFind pid rd.scores).getD 0 } else p).id
          = p.id := by
        by_cases h' : (p.id == pid) = true <;> simp [h']
      have hstep := hsc _ hq1 p' hp' (hid.trans hqid.symm)
      rw [hqid] at hstep
      by_cases hmem : (p.id == pid) = true
      · have hpid : p.id = pid := eq_of_beq hmem
        have hnotin : pid ∉ rest := (List.nodup_cons.mp hnod).1
        rw [if_pos hmem] at hstep
        rw [if_neg (by rw [hpid]; exact hnotin)] at hstep
        rw [if_pos (by rw [hpid]; exact List.mem_cons_self _ _), hpid]
        simpa [hpid] using hstep
      · rw [if_neg hmem] at hstep
        have hne : p.id ≠ pid := fun he => hmem (beq_of_eq he)
        by_cases hr : p.id ∈ rest
        · rw [if_pos hr] at hstep
          rw [if_pos (List.mem_cons_of_mem _ hr)]
          exact hstep
        · rw [if_neg hr] at hstep
          rw [if_neg (by simp [List.mem_cons, hne, hr])]
          exact hstep

lemma removePlayer_findRoom (sid : String) :
    ∀ (reg : Registry) (code : String) (room room' : Room),
      (reg.map Room.code).Nodup →
      findRoom reg code = some room →
      findRoom (removePlayer sid reg) code = some room' →
      room' = room ∨
        ∃ hID, room' = { room with players := delPlayer sid room.players, host := hID } := by
  intro reg
  induction reg with
  | nil => intro code room room' _ h _; cases h
  | cons q qs ih =>
    intro code room room' hcodes h h'
    have hnotin : q.code ∉ qs.map Room.code := (List.nodup_cons.mp (by simpa using hcodes)).1
    have hcodes' : (qs.map Room.code).Nodup := (List.nodup_cons.mp (by simpa using hcodes)).2
    by_cases hq : (q.code == code) = true
    · have hroom : q = room := by
        unfold findRoom at h
        rw [if_pos hq] at h
        exact Option.some.inj h
      subst hroom
      by_cases hf : q.players.any (fun w => w.id == sid) = true
      · by_cases hh : (q.host == sid) = true
        · cases hdel : delPlayer sid q.players with
          | nil =>
            have hres : removePlayer sid (q :: qs) = qs := by
              simp [removePlayer, hf, hh, hdel]
            rw [hres] at h'
            have hnone : findRoom qs code = none :=
              findRoom_eq_none_of_not_mem qs code (by rw [← eq_of_beq hq]; exact hnotin)
            rw [hnone] at h'
            cases h'
          | cons p prest =>
            have hres : removePlayer sid (q :: qs) = { q with players := delPlayer sid q.players, host := p.id } :: removePlayer sid qs := by
              simp [removePlayer, hf, hh, hdel]
            rw [hres] at h'
            unfold findRoom at h'
            rw [if_pos (show (({ q with players := delPlayer sid q.players, host := p.id } : Room).code == code) = true from hq)] at h'
            right
            refine ⟨p.id, ?_⟩
            rw [← hdel]
            exact (Option.some.inj h').symm
        · have hres : removePlayer sid (q :: qs) = { q with players := delPlayer sid q.players } :: removePlayer sid qs := by
            simp [removePlayer, hf, hh]
          rw [hres] at h'
          unfold findRoom at h'
          rw [if_pos (show (({ q with players := delPlayer sid q.players } : Room).code == code) = true from hq)] at h'
          right
          exact ⟨q.host, (Option.some.inj h').symm⟩
      · have hres : removePlayer sid (q :: qs) = q :: removePlayer sid qs := by
          simp [removePlayer, hf]
        rw [hres] at h'
        unfold findRoom at h'
        rw [if_pos hq] at h'
        left
        exact (Option.some.inj h').symm
    · unfold findRoom at h
      rw [if_neg hq] at h
      by_cases hf : q.players.any (fun w => w.id == sid) = true
      · by_cases hh : (q.host == sid) = true
        · cases hdel : delPlayer sid q.players with
          | nil =>
            have hres : removePlayer sid (q :: qs) = qs := by
              simp [removePlayer, hf, hh, hdel]
            rw [hres, h] at h'
            left
            exact (Option.some.inj h').symm
          | cons p prest =>
            have hres : removePlayer sid (q :: qs) = { q with players := delPlayer sid q.players, host := p.id } :: removePlayer sid qs := by
              simp [removePlayer, hf, hh, hdel]
            rw [hres] at h'
            unfold findRoom at h'
            rw [if_neg (show ¬ (({ q with players := delPlayer sid q.players, host := p.id } : Room).code == code) = true from hq)] at h'
            exact ih code room room' hcodes' h h'
        · have hres : removePlayer sid (q :: qs) = { q with players := delPlayer sid q.players } :: removePlayer sid qs := by
            simp [removePlayer, hf, hh]
          rw [hres] at h'
          unfold findRoom at h'
          rw [if_neg (show ¬ (({ q with players := delPlayer sid q.players } : Room).code == code) = true from hq)] at h'
          exact ih code room room' hcodes' h h'
      · have hres : removePlayer sid (q :: qs) = q :: removePlayer sid qs := by
          simp [removePlayer, hf]
        rw [hres] at h'
        unfold findRoom at h'
        rw [if_neg hq] at h'
        exact ih code room room' hcodes' h h'

lemma accumulateScores_code (rd : RoundData) :
    ∀ (snapshot : List String) (room room' : Room),
      accumulateScores snapshot rd room = Except.ok room' → room'.code = room.code := by
  intro snapshot
  induction snapshot with
  | nil =>
    intro room room' h
    rw [← Except.ok.inj h]
  | cons pid rest ih =>
    intro room room' h
    rw [accumulateScores_cons] at h
    cases hfp : findPlayer pid room.players with
    | none => rw [hfp] at h; cases h
    | some w =>
      rw [hfp] at h
      have h' : accumulateScores rest rd
          { room with players := room.players.map (fun q =>
              if q.id == pid then
                { q with score := q.score + (assocFind pid rd.scores).getD 0 }
              else q) } = Except.ok room' := h
      exact ih { room with players := room.players.map (fun q =>
        if q.id == pid then
          { q with score := q.score + (assocFind pid rd.scores).getD 0 }
        else q) } room' h' 

lemma roundPhases_ok (gen : String → Except String String) (orig : String)
    (snapshot : List String) (room : Room) (rd : RoundData) (roomAcc : Room)
    (rd2 : RoundData)
    (h : roundPhases gen orig snapshot room rd = Except.ok (roomAcc, rd2)) :
    rd2 = scoringPhase orig snapshot (generateImagesPhase gen snapshot rd) ∧
    accumulateScores snapshot rd2 room = Except.ok roomAcc := by
  simp only [roundPhases] at h
  cases hac : accumulateScores snapshot
      (scoringPhase orig snapshot (generateImagesPhase gen snapshot rd)) room with
  | ok r2 =>
    rw [hac] at h
    have hpair := Except.ok.inj h
    rw [Prod.mk.injEq] at hpair
    refine ⟨hpair.2.symm, ?_⟩
    rw [← hpair.2, ← hpair.1]
    exact hac
  | error e => rw [hac] at h; cases h

lemma score_eq_concl (op : Op) (p p' : Player) (h : p' = p) :
    p.score ≤ p'.score ∧ p'.score ≤ p.score + 100 ∧
      (isRoundOp op = false → p'.score = p.score) := by
  rw [h]
  exact ⟨le_rfl, by omega, fun _ => rfl⟩

/-- C8 (amended): along any successfully executed registry/orchestrator
operation, every player's cumulative score is monotonically non-decreasing
and gains at most 100 points, provided a join does not reuse an id already
in the target room (such a rejoin overwrites the entry, resetting its
score to 0); non-round operations leave every surviving player's score
unchanged, and a round operation adds that player's round score — between
0 and 100 — exactly once.  (Scores are naturals, hence non-negative.) -/
theorem score_monotone_per_op (mp : Nat) (op : Op) (reg reg' : Registry)
    (code : String) (room room' : Room) (p p' : Player)
    (hexec : execOp mp op reg = Except.ok reg')
    (hjoin : joinFresh op reg) (hsnap : snapshotOk op)
    (hcodes : (reg.map Room.code).Nodup)
    (hfind : findRoom reg code = some room)
    (hfind' : findRoom reg' code = some room')
    (hp : p ∈ room.players) (hp' : p' ∈ room'.players) (hid : p'.id = p.id)
    (hnodup : (room.players.map Player.id).Nodup) :
    p.score ≤ p'.score ∧ p'.score ≤ p.score + 100 ∧
    (isRoundOp op = false → p'.score = p.score) := by
  cases op with
  | create c cfg sid =>
    have hreg' : reg' = reg ++ [createRoom c cfg sid] := (Except.ok.inj hexec).symm
    subst hreg'
    rw [findRoom_append reg _ code room hfind] at hfind'
    have hsame : room' = room := (Option.some.inj hfind').symm
    rw [hsame] at hp'
    exact score_eq_concl _ p p' (mem_id_unique room.players hnodup p hp p' hp' hid)
  | join jcode sid name =>
    have hreg' : reg' = (joinRoom mp reg jcode sid name).2 := (Except.ok.inj hexec).symm
    subst hreg'
    cases hjf : findRoom reg jcode with
    | none =>
      rw [show (joinRoom mp reg jcode sid name).2 = reg
          from by simp [joinRoom, hjf]] at hfind'
      rw [hfind] at hfind'
      have hsame : room' = room := (Option.some.inj hfind').symm
      rw [hsame] at hp'
      exact score_eq_concl _ p p' (mem_id_unique room.players hnodup p hp p' hp' hid)
    | some jroom =>
      by_cases hcap : mp ≤ jroom.players.length
      · rw [show (joinRoom mp reg jcode sid name).2 = reg
            from by simp [joinRoom, hjf, hcap]] at hfind'
        rw [hfind] at hfind'
        have hsame : room' = room := (Option.some.inj hfind').symm
        rw [hsame] at hp'
        exact score_eq_concl _ p p' (mem_id_unique room.players hnodup p hp p' hp' hid)
      · have hreg2 : (joinRoom mp reg jcode sid name).2 =
            updateRoom reg
              { jroom with players := setPlayer (mkJoinPlayer sid name) jroom.players } := by
          simp [joinRoom, hjf, hcap]
        rw [hreg2] at hfind'
        have hjc : jroom.code = jcode := findRoom_code reg jcode jroom hjf
        by_cases hceq : jcode = code
        · have hrr : room = jroom := by
            rw [hceq] at hjf
            rw [hfind] at hjf
            exact Option.some.inj hjf
          have hup := findRoom_updateRoom_self reg
            { jroom with players := setPlayer (mkJoinPlayer sid name) jroom.players }
            code (hjc.trans hceq) room hfind
          rw [hup] at hfind'
          have hroom' : room' =
              { jroom with players := setPlayer (mkJoinPlayer sid name) jroom.players } :=
            (Option.some.inj hfind').symm
          have hfresh : jroom.players.all (fun w => !(w.id == sid)) = true := hjoin jroom hjf
          have hsp : setPlayer (mkJoinPlayer sid name) jroom.players
              = jroom.players ++ [mkJoinPlayer sid name] :=
            setPlayer_of_fresh (mkJoinPlayer sid name) jroom.players hfresh
          have hp'2 : p' ∈ jroom.players ++ [mkJoinPlayer sid name] := by
            rw [← hsp]
            rw [hroom'] at hp'
            exact hp'
          rcases List.mem_append.mp hp'2 with hin | hnew
          · have hin' : p' ∈ room.players := by rw [hrr]; exact hin
            exact score_eq_concl _ p p' (mem_id_unique room.players hnodup p hp p' hin' hid)
          · exfalso
            have hpid : p'.id = sid := by
              rcases List.mem_singleton.mp hnew with rfl
              rfl
            have hall := List.all_eq_true.mp hfresh p (by rw [← hrr]; exact hp)
            have hps : p.id = sid := (hid.symm).trans hpid
            rw [hps] at hall
            simp at hall
        · have hne : ¬ ({ jroom with
              players := setPlayer (mkJoinPlayer sid name) jroom.players } : Room).code = code := by
            rw [show ({ jroom with
              players := setPlayer (mkJoinPlayer sid name) jroom.players } : Room).code
                = jroom.code from rfl, hjc]
            exact hceq
          rw [findRoom_updateRoom_ne reg _ code hne] at hfind'
          rw [hfind] at hfind'
          have hsame : room' = room := (Option.some.inj hfind').symm
          rw [hsame] at hp'
          exact score_eq_concl _ p p' (mem_id_unique room.players hnodup p hp p' hp' hid)
  | leave sid =>
    have hreg' : reg' = removePlayer sid reg := (Except.ok.inj hexec).symm
    subst hreg'
    rcases removePlayer_findRoom sid reg code room room' hcodes hfind hfind' with hsame | ⟨hID, hdel⟩
    · rw [hsame] at hp'
      exact score_eq_concl _ p p' (mem_id_unique room.players hnodup p hp p' hp' hid)
    · have hin : p' ∈ room.players := by
        rw [hdel] at hp'
        exact delPlayer_subset sid room.players p' hp'
      exact score_eq_concl _ p p' (mem_id_unique room.players hnodup p hp p' hin hid)
  | round rcode gen orig snapshot =>
    cases hfr : findRoom reg rcode with
    | none =>
      rw [show execOp mp (Op.round rcode gen orig snapshot) reg = Except.ok reg
          from by simp [execOp, hfr]] at hexec
      have hreg' : reg' = reg := (Except.ok.inj hexec).symm
      subst hreg'
      rw [hfind] at hfind'
      have hsame : room' = room := (Option.some.inj hfind').symm
      rw [hsame] at hp'
      exact score_eq_concl _ p p' (mem_id_unique room.players hnodup p hp p' hp' hid)
    | some roomR =>
      have hx : execOp mp (Op.round rcode gen orig snapshot) reg =
          (match roundPhases gen orig snapshot roomR (roomR.roundData.getD emptyRoundData) with
           | Except.ok rr => Except.ok (updateRoom reg { rr.1 with roundData := some rr.2 })
           | Except.error e => Except.error e) := by
        simp [execOp, hfr]
      rw [hx] at hexec
      cases hrp : roundPhases gen orig snapshot roomR (roomR.roundData.getD emptyRoundData) with
      | error e => rw [hrp] at hexec; cases hexec
      | ok rr =>
        obtain ⟨roomAcc, rd2⟩ := rr
        rw [hrp] at hexec
        have hreg' : reg' = updateRoom reg { roomAcc with roundData := some rd2 } :=
          (Except.ok.inj hexec).symm
        subst hreg'
        obtain ⟨hrd2, hacc⟩ := roundPhases_ok gen orig snapshot roomR
          (roomR.roundData.getD emptyRoundData) roomAcc rd2 hrp
        have hAcode : roomAcc.code = roomR.code := accumulateScores_code rd2 snapshot roomR roomAcc hacc
        have hRcode : roomR.code = rcode := findRoom_code reg rcode roomR hfr
        by_cases hceq : rcode = code
        · have hrr : roomR = room := by
            rw [hceq] at hfr
            rw [hfind] at hfr
            exact (Option.some.inj hfr).symm
          have hup := findRoom_updateRoom_self reg { roomAcc with roundData := some rd2 }
            code (hAcode.trans (hRcode.trans hceq)) room hfind
          rw [hup] at hfind'
          have hroom' : room' = { roomAcc with roundData := some rd2 } :=
            (Option.some.inj hfind').symm
          have hpacc : p' ∈ roomAcc.players := by
            rw [hroom'] at hp'
            exact hp'
          have hpR : p ∈ roomR.players := by rw [hrr]; exact hp
          have hnodupR : (roomR.players.map Player.id).Nodup := by rw [hrr]; exact hnodup
          obtain ⟨_, hsc⟩ := accumulateScores_ok rd2 snapshot roomR roomAcc hacc hsnap hnodupR
          have hval := hsc p hpR p' hpacc hid
          by_cases hmem : p.id ∈ snapshot
          · rw [if_pos hmem] at hval
            have hbound : (assocFind p.id rd2.scores).getD 0 ≤ 100 := by
              rw [hrd2, scoringPhase_scores_mem orig snapshot p.id hmem _]
              simpa using scoreResult_le_100 orig _ p.id
            refine ⟨by omega, by omega, ?_⟩
            intro habs
            simp [isRoundOp] at habs
          · rw [if_neg hmem] at hval
            refine ⟨by omega, by omega, ?_⟩
            intro _
            omega
        · have hne : ¬ ({ roomAcc with roundData := some rd2 } : Room).code = code := by
            rw [show ({ roomAcc with roundData := some rd2 } : Room).code = roomAcc.code
              from rfl, hAcode, hRcode]
            exact hceq
          rw [findRoom_updateRoom_ne reg _ code hne] at hfind'
          rw [hfind] at hfind'
          have hsame : room' = room := (Option.some.inj hfind').symm
          rw [hsame] at hp'
          exact score_eq_concl _ p p' (mem_id_unique room.players hnodup p hp p' hp' hid)

/-- Witness for `score_monotone_per_op`: a create operation on a registry
holding the two-player room leaves player `P2`'s score of 50 unchanged. -/
theorem score_monotone_per_op_witness :
    execOp 6 (Op.create "XYZ789" cfgEmpty "H9") [roomTwo]
      = Except.ok [roomTwo, createRoom "XYZ789" cfgEmpty "H9"] ∧
    bobPlayer ∈ roomTwo.players ∧
    (bobPlayer.score ≤ bobPlayer.score ∧ bobPlayer.score ≤ bobPlayer.score + 100 ∧
      (isRoundOp (Op.create "XYZ789" cfgEmpty "H9") = false →
        bobPlayer.score = bobPlayer.score)) :=
  ⟨rfl, by decide,
   score_monotone_per_op 6 (Op.create "XYZ789" cfgEmpty "H9") [roomTwo]
     [roomTwo, createRoom "XYZ789" cfgEmpty "H9"] "ABC123" roomTwo roomTwo
     bobPlayer bobPlayer rfl trivial trivial (by decide) (by decide) (by decide)
     (by decide) (by decide) rfl (by decide)⟩


/-- C10: a `createRoom` call whose config omits `rounds`, `difficulty`,
`categories` or `mode` fills the defaults `3`, `"medium"`, `["random"]`,
`"classic"`; the creator's name defaults to `"Host"` when
`config.playerName` is absent; and the room starts in state WAITING with
`currentRound = 0` and the creator as sole player (score 0) and host. -/
theorem createRoom_defaults (code : String) (cfg : ClientConfig) (sid : String) :
    (cfg.rounds = none → (createRoom code cfg sid).config.rounds = 3) ∧
    (cfg.difficulty = none → (createRoom code cfg sid).config.difficulty = "medium") ∧
    (cfg.categories = none → (createRoom code cfg sid).config.categories = ["random"]) ∧
    (cfg.mode = none → (createRoom code cfg sid).config.mode = "classic") ∧
    (cfg.playerName = none → (createRoom code cfg sid).players.map Player.name = ["Host"]) ∧
    (createRoom code cfg sid).state = GameState.waiting ∧
    (createRoom code cfg sid).currentRound = 0 ∧
    (createRoom code cfg sid).players.map Player.id = [sid] ∧
    (createRoom code cfg sid).host = sid ∧
    (createRoom code cfg sid).players.map Player.score = [0] := by
  refine ⟨?_, ?_, ?_, ?_, ?_, rfl, rfl, rfl, rfl, rfl⟩ <;>
    intro h <;> simp [createRoom, orDefaultNat, orDefaultStr, orDefaultList, h]

/-- Witness for `createRoom_defaults` at the all-absent configuration. -/
theorem createRoom_defaults_witness :
    cfgEmpty.rounds = none ∧ cfgEmpty.playerName = none ∧
    (createRoom "ABC123" cfgEmpty "H1").config.rounds = 3 ∧
    (createRoom "ABC123" cfgEmpty "H1").players.map Player.name = ["Host"] :=
  ⟨rfl, rfl, (createRoom_defaults "ABC123" cfgEmpty "H1").1 rfl,
   (createRoom_defaults "ABC123" cfgEmpty "H1").2.2.2.2.1 rfl⟩

/-- C5 (amended): every start-game request is answered explicitly, and it
is rejected exactly when the referenced room is absent; a request for an
existing room is admitted into the game loop (whose first action sets the
state to STARTING) regardless of the room's current state. -/
theorem startGame_rejects_iff_absent (reg : Registry) (code : String) :
    (findRoom reg code = none →
      startGameCheck reg code = StartDecision.rejected "Room not found") ∧
    (∀ room, findRoom reg code = some room →
      startGameCheck reg code = StartDecision.started ∧
      (startGameBegin room).state = GameState.starting) := by
  constructor
  · intro h
    simp [startGameCheck, h]
  · intro room h
    exact ⟨by simp [startGameCheck, h], rfl⟩

/-- Witness for `startGame_rejects_iff_absent`: an unknown code is
rejected; a known one is admitted. -/
theorem startGame_rejects_iff_absent_witness :
    findRoom [] "ABC123" = none ∧
    startGameCheck [] "ABC123" = StartDecision.rejected "Room not found" ∧
    findRoom [roomFresh] "ABC123" = some roomFresh ∧
    startGameCheck [roomFresh] "ABC123" = StartDecision.started :=
  ⟨rfl, (startGame_rejects_iff_absent [] "ABC123").1 rfl, by decide,
   ((startGame_rejects_iff_absent [roomFresh] "ABC123").2 roomFresh (by decide)).1⟩

/-- C5 counterexample: a start-game request for a room that is not in the
WAITING state (here: VOTING) is admitted, not rejected — the handler only
checks that the room exists. -/
theorem startGame_accepts_non_waiting :
    findRoom [roomVoting] "ABC123" = some roomVoting ∧
    roomVoting.state = GameState.voting ∧
    startGameCheck [roomVoting] "ABC123" = StartDecision.started := by
  refine ⟨by decide, rfl, by decide⟩

/-- C9 counterexample: a submit-prompt request for an existing room that
has not begun its first round (its `roundData` is still the bare `{}`)
throws a `TypeError` and is acknowledged as a failure, not accepted. -/
theorem submit_before_first_round_fails :
    findRoom [roomFresh] "ABC123" = some roomFresh ∧
    roomFresh.roundData = none ∧
    (submitPromptHandler [roomFresh] "ABC123" "H1" "hello").1 =
      { success := false,
        message := some "TypeError: cannot set properties of undefined" } := by
  refine ⟨by decide, rfl, by decide⟩

/-- C3: when a snapshotted player (here `P2`, who submitted a prompt and
then disconnected) is no longer in the players map, the round tail does
not complete: the score-accumulation loop dereferences
`room.players.get(playerId)` and throws a `TypeError`. -/
theorem accumulation_crashes_on_departed_player :
    roomDeparted.players.map Player.id = ["H1"] ∧
    assocFind "P2" rdTwo.prompts = some "a dog" ∧
    roundPhases genOk "a cat" ["H1", "P2"] roomDeparted rdTwo =
      Except.error "TypeError: cannot read score of undefined" := by
  refine ⟨rfl, by decide, rfl⟩

/-- C4 counterexample: a player whose image generation fails but who
submitted a prompt gets a null image yet a round score computed from the
prompt — here 100, not the 0 the claim asserts. -/
theorem failed_generation_score_not_zero :
    (roundPhases genFail "a cat" ["H1"] roomDeparted rdTwo).map
        (fun rr => (rr.1.players.map Player.score,
                    assocFind "H1" rr.2.images,
                    assocFind "H1" rr.2.scores)) =
      Except.ok ([100], some none, some 100) := rfl

/-- C1 counterexample: on the inputs `"cat!"` and `"cat"` the code
returns 50 — `split(/\W+/)` keeps an empty token for the trailing `!`,
giving token lists of lengths 2 and 1 — while the claim's reference
definition (words only) gives 100. -/
theorem calculateSimilarity_differs_from_reference :
    calculateSimilarity "cat!" "cat" = 50 ∧ specSimilarity "cat!" "cat" = 100 := by
  refine ⟨by decide, by decide⟩

/-- C6 counterexample: joining an under-capacity room with a player id
already in it succeeds but leaves the player count unchanged (the `Map`
entry is overwritten, resetting the score), contradicting the claimed
"increases the player count by exactly one". -/
theorem join_duplicate_id_keeps_count :
    roomTwo.players.length = 2 ∧
    (joinRoom 6 [roomTwo] "ABC123" "P2" "Bob").1.success = true ∧
    ((joinRoom 6 [roomTwo] "ABC123" "P2" "Bob").2.map (fun r => r.players.length)) = [2] := by
  refine ⟨rfl, by decide, by decide⟩

/-- C8 counterexample: a join-room operation that reuses the id of a
player already in the room resets that player's cumulative score (here
from 50 to 0) — an operation that decreases the score field. -/
theorem rejoin_resets_cumulative_score :
    scoreOf [roomTwo] "ABC123" "P2" = some 50 ∧
    (execOp 6 (Op.join "ABC123" "P2" "Bob") [roomTwo]).map
      (fun reg => scoreOf reg "ABC123" "P2") = Except.ok (some 0) := by
  refine ⟨by decide, rfl⟩

end PromptBattle
